import Mathlib

/-!
Verification development for the `vitepress-pdf-export` merge engine
(`src/config.rs`, `src/merge.rs`).

The PDF object graph, the document container and the library primitives the
code calls (`lopdf`'s `Dictionary`, `BTreeMap`-backed object table,
`renumber_objects_with`, `get_pages`, ...) are embedded shallowly:

* `Obj` mirrors `lopdf::Object` (reals are modelled as rationals);
* dictionaries are insertion-ordered association lists, mirroring
  `lopdf::Dictionary`'s linked hash map: `dSet` replaces in place or appends,
  `dExtend` inserts every entry of the other dictionary, overwriting on
  conflicts;
* the object table is a sorted association list, mirroring
  `BTreeMap<ObjectId, Object>` iteration order;
* fallible Rust code (`Result` + `?`) lands in `Except Fail`, and an
  `unwrap`/panic is the distinguished `Fail.panicked`.
-/

namespace VPDF

set_option maxHeartbeats 4000000

/-- Object identifier: a (number, generation) pair, as `lopdf::ObjectId`. -/
abbrev OId := Nat × Nat

/-- Strict lexicographic order on object ids, the `BTreeMap` key order. -/
def oidLt (a b : OId) : Bool :=
  a.1 < b.1 || (a.1 = b.1 && a.2 < b.2)

/-- PDF object, mirroring `lopdf::Object`. Stream payloads are kept as decoded
content operations (operator plus operand list), which is the only view the
merge code takes of them. -/
inductive Obj where
  | null
  | boolean (b : Bool)
  | integer (i : Int)
  | real (r : Rat)
  | string (s : String)
  | name (n : String)
  | ref (id : OId)
  | array (xs : List Obj)
  | dict (d : List (String × Obj))
  | stream (d : List (String × Obj)) (ops : List (String × List Obj))

/-- Dictionary: insertion-ordered key/value list (`lopdf::Dictionary`). -/
abbrev Dict := List (String × Obj)

/-- Failure: an `anyhow`/`lopdf` error propagated with `?`, or a panic from
`unwrap`. -/
inductive Fail where
  | error (msg : String)
  | panicked

/-- Result type of the embedded fallible functions. -/
abbrev Res (α : Type) := Except Fail α

/-- Dictionary lookup (`Dictionary::get`, as an `Option`). -/
def dGet (d : Dict) (k : String) : Option Obj :=
  match d with
  | [] => none
  | (k', v) :: t => if k = k' then some v else dGet t k

/-- Dictionary membership (`Dictionary::has`). -/
def dHas (d : Dict) (k : String) : Bool :=
  (dGet d k).isSome

/-- Dictionary update (`Dictionary::set` / linked-hash-map insert): replace the
value in place when the key is present, append otherwise. -/
def dSet (k : String) (v : Obj) (d : Dict) : Dict :=
  match d with
  | [] => [(k, v)]
  | (k', v') :: t => if k = k' then (k, v) :: t else (k', v') :: dSet k v t

/-- Dictionary removal (`Dictionary::remove`): drops the entry for the key. -/
def dRemove (k : String) (d : Dict) : Dict :=
  match d with
  | [] => []
  | (k', v') :: t => if k = k' then t else (k', v') :: dRemove k t

/-- Dictionary merge (`Dictionary::extend`): insert every entry of `other`
into `base`, overwriting the value on key conflicts. -/
def dExtend (base other : Dict) : Dict :=
  other.foldl (fun acc kv => dSet kv.1 kv.2 acc) base

/-- Sorted insertion into the `BTreeMap`-modelled object table. -/
def btInsert (k : OId) (v : Obj) (m : List (OId × Obj)) : List (OId × Obj) :=
  match m with
  | [] => [(k, v)]
  | (k', v') :: t =>
    if k = k' then (k, v) :: t
    else if oidLt k k' then (k, v) :: (k', v') :: t
    else (k', v') :: btInsert k v t

/-- Lookup in the object table. -/
def btGet (m : List (OId × Obj)) (k : OId) : Option Obj :=
  match m with
  | [] => none
  | (k', v) :: t => if k = k' then some v else btGet t k

/-- Removal from the object table (`Document::delete_object`). -/
def btRemove (k : OId) (m : List (OId × Obj)) : List (OId × Obj) :=
  match m with
  | [] => []
  | (k', v') :: t => if k = k' then t else (k', v') :: btRemove k t

/-- Insert a whole batch (`BTreeMap::extend`). -/
def btExtend (m : List (OId × Obj)) (batch : List (OId × Obj)) :
    List (OId × Obj) :=
  batch.foldl (fun acc kv => btInsert kv.1 kv.2 acc) m

/-- The in-memory document: object table (sorted by id), trailer dictionary,
running maximum id — as `lopdf::Document`. -/
structure Document where
  objects : List (OId × Obj)
  trailer : Dict
  max_id : Nat

/-- Fresh document (`Document::with_version`). -/
def Document.withVersion : Document :=
  { objects := [], trailer := [], max_id := 0 }

/-- Turn a missing optional into a propagated error (`Result` + `?`). -/
def require {α : Type} (o : Option α) (msg : String) : Res α :=
  match o with
  | some a => .ok a
  | none => .error (.error msg)

/-- `Object::as_dict`: succeeds on plain dictionaries only. -/
def as_dict (o : Obj) : Res Dict :=
  match o with
  | .dict d => .ok d
  | _ => .error (.error "not a dictionary")

/-- `Object::as_reference`. -/
def as_reference (o : Obj) : Res OId :=
  match o with
  | .ref id => .ok id
  | _ => .error (.error "not a reference")

/-- `Object::as_array`. -/
def as_array (o : Obj) : Res (List Obj) :=
  match o with
  | .array xs => .ok xs
  | _ => .error (.error "not an array")

/-- `Object::as_i64`. -/
def as_i64 (o : Obj) : Res Int :=
  match o with
  | .integer i => .ok i
  | _ => .error (.error "not an integer")

/-- `Object::as_string` (string payloads only). -/
def as_string (o : Obj) : Res String :=
  match o with
  | .string s => .ok s
  | _ => .error (.error "not a string")

/-- `Object::as_name` / `as_name_str`. -/
def as_name (o : Obj) : Res String :=
  match o with
  | .name n => .ok n
  | _ => .error (.error "not a name")

/-- `Object::type_name`: the `/Type` name of a dictionary or of a stream's
dictionary. -/
def type_name (o : Obj) : Option String :=
  match o with
  | .dict d | .stream d _ =>
    match dGet d "Type" with
    | some (.name n) => some n
    | _ => none
  | _ => none

/-- `Document::get_object`. -/
def get_object (doc : Document) (id : OId) : Res Obj :=
  require (btGet doc.objects id) "object not found"

/-- `Document::get_dictionary`. -/
def get_dictionary (doc : Document) (id : OId) : Res Dict :=
  get_object doc id >>= as_dict

/-- Store an object at an id (the write-back of an in-place mutation through
`get_object_mut`, or a direct `objects.insert`). -/
def setObj (doc : Document) (id : OId) (o : Obj) : Document :=
  { doc with objects := btInsert id o doc.objects }

/-- `Document::add_object`: bump `max_id` and insert at `(max_id, 0)`. -/
def add_object (doc : Document) (o : Obj) : OId × Document :=
  let id : OId := (doc.max_id + 1, 0)
  (id, { objects := btInsert id o doc.objects
         trailer := doc.trailer
         max_id := doc.max_id + 1 })

/-- `Document::dereference`: follow reference chains (bounded by the table
size, as any longer chain must be cyclic and fails in `lopdf` too). -/
def deref (doc : Document) (o : Obj) : Res Obj :=
  go (doc.objects.length + 1) o
where
  go : Nat → Obj → Res Obj
    | 0, _ => .error (.error "reference cycle")
    | fuel + 1, o =>
      match o with
      | .ref id =>
        match btGet doc.objects id with
        | some o' => go fuel o'
        | none => .error (.error "dangling reference")
      | o => .ok o

/-- `Dictionary::get_deref`: field lookup followed by dereferencing. -/
def get_deref (d : Dict) (k : String) (doc : Document) : Res Obj :=
  require (dGet d k) "missing key" >>= deref doc

mutual

/-- Rename every object reference (used by `renumber_objects_with`). -/
def mapRefs (f : OId → OId) : Obj → Obj
  | .ref id => .ref (f id)
  | .array xs => .array (mapRefsList f xs)
  | .dict d => .dict (mapRefsEntries f d)
  | .stream d ops => .stream (mapRefsEntries f d) (mapRefsOps f ops)
  | .null => .null
  | .boolean b => .boolean b
  | .integer i => .integer i
  | .real r => .real r
  | .string s => .string s
  | .name n => .name n

def mapRefsList (f : OId → OId) : List Obj → List Obj
  | [] => []
  | o :: t => mapRefs f o :: mapRefsList f t

def mapRefsEntries (f : OId → OId) : List (String × Obj) → List (String × Obj)
  | [] => []
  | (k, v) :: t => (k, mapRefs f v) :: mapRefsEntries f t

def mapRefsOps (f : OId → OId) :
    List (String × List Obj) → List (String × List Obj)
  | [] => []
  | (op, args) :: t => (op, mapRefsList f args) :: mapRefsOps f t
end

/-- Index of the first occurrence of an id in the old-key list. -/
def idxOfKey (olds : List OId) (id : OId) : Option Nat :=
  match olds with
  | [] => none
  | k :: t => if k = id then some 0 else (idxOfKey t id).map (· + 1)

/-- The replacement map built by `renumber_objects_with`: the `i`-th object id
in `BTreeMap` order is renamed to `starting_id + i` (generation kept); ids not
present in the table are left unchanged. -/
def replMap (olds : List OId) (start : Nat) (id : OId) : OId :=
  match idxOfKey olds id with
  | some i => (start + i, id.2)
  | none => id

/-- Sequential reassignment of the object table's keys, with every reference
inside the values rewritten. -/
def renumAux (f : OId → OId) (n : Nat) :
    List (OId × Obj) → List (OId × Obj)
  | [] => []
  | (id, o) :: t => ((n, id.2), mapRefs f o) :: renumAux f (n + 1) t

/-- `Document::renumber_objects_with(starting_id)`: assign dense sequential
ids starting at `starting_id` in ascending old-id order, rewrite every
reference (trailer included), and set `max_id` to the last assigned id. -/
def renumber_objects_with (start : Nat) (doc : Document) : Document :=
  let olds := doc.objects.map Prod.fst
  let f := replMap olds start
  { objects := renumAux f start doc.objects
    trailer := mapRefsEntries f doc.trailer
    max_id := start + doc.objects.length - 1 }

/-- `Document::renumber_objects` = `renumber_objects_with(1)`. -/
def renumber_objects (doc : Document) : Document :=
  renumber_objects_with 1 doc

/-- Look up a node of the page tree: page-tree nodes are dictionaries. -/
def getNodeDict (doc : Document) (id : OId) : Option Dict :=
  match btGet doc.objects id with
  | some (.dict d) => some d
  | _ => none

/-- One step of `Document::page_iter`: a `Page`-typed node yields itself, a
`Pages`-typed node yields the traversal of the referenced `Kids` in order
(non-reference kids are skipped), anything else yields nothing. -/
def pageIterAux (doc : Document) : Nat → OId → List OId
  | 0, _ => []
  | fuel + 1, id =>
    match getNodeDict doc id with
    | none => []
    | some nd =>
      if type_name (.dict nd) = some "Page" then [id]
      else if type_name (.dict nd) = some "Pages" then
        match dGet nd "Kids" with
        | some (.array kids) =>
          kids.flatMap (fun k =>
            match k with
            | .ref kid => pageIterAux doc fuel kid
            | _ => [])
        | _ => []
      else []

/-- `Document::page_iter`: walk the page tree from the catalog's `Pages`
root, yielding page object ids in page-tree order. -/
def page_iter (doc : Document) : List OId :=
  match dGet doc.trailer "Root" with
  | some (.ref rootId) =>
    match getNodeDict doc rootId with
    | some cat =>
      match dGet cat "Pages" with
      | some (.ref pagesId) => pageIterAux doc (doc.objects.length + 1) pagesId
      | _ => []
    | none => []
  | _ => []

/-- `Document::get_pages`: the 1-based page-number → page-id map, in
ascending page-number order (`BTreeMap<u32, ObjectId>` iteration). -/
def get_pages (doc : Document) : List (Nat × OId) :=
  (page_iter doc).enum.map (fun p => (p.1 + 1, p.2))

/-- Lookup in a `Nat`-keyed map (`BTreeMap::get`). -/
def natGet (m : List (Nat × OId)) (k : Nat) : Option OId :=
  match m with
  | [] => none
  | (k', v) :: t => if k = k' then some v else natGet t k

/-- `Document::catalog`: dereference the trailer's `Root` entry. -/
def catalog (doc : Document) : Res Dict :=
  require (dGet doc.trailer "Root") "missing Root" >>= as_reference >>=
    get_dictionary doc

/-- `Document::get_dict_in_dict`: fetch a field of a dictionary and
dereference it into a dictionary. -/
def get_dict_in_dict (doc : Document) (node : Dict) (k : String) : Res Dict :=
  (require (dGet node k) "missing key" >>= deref doc) >>= as_dict

/-- Embeds `get_named_dests` (merge.rs lines 19-33): read the catalog's
`Dests` dictionary, falling back to `Names`/`Dests`; if both lookups fail the
first failure is propagated with `?`. -/
def get_named_dests (doc : Document) : Res Dict := do
  let cat ← catalog doc
  let tree := get_dict_in_dict doc cat "Dests"
  let tree :=
    match tree with
    | .error _ =>
      match get_dict_in_dict doc cat "Names" with
      | .ok names =>
        match get_dict_in_dict doc names "Dests" with
        | .ok dests => .ok dests
        | .error _ => tree
      | .error _ => tree
    | _ => tree
  tree

/-- The two collections produced by `merge_pdf_objects`. -/
structure PdfParts where
  objects : List (OId × Obj)
  pages : List (OId × Obj)

/-- One iteration of the `merge_pdf_objects` loop: record the running page
count as the url's ordinal, renumber the source document starting at the
current counter, then pour its pages and objects into the accumulators. The
`get_object(..).unwrap()` on each page id is a panic when the id is absent. -/
def importOne (st : List (String × Nat) × List (OId × Obj) × List (OId × Obj) × Nat)
    (src : String × Document) : Res
      (List (String × Nat) × List (OId × Obj) × List (OId × Obj) × Nat) := do
  let (url_to_page_num, objects, pages, starting_id) := st
  let url_to_page_num := url_to_page_num ++ [(src.1, pages.length)]
  let doc := renumber_objects_with starting_id src.2
  let starting_id := doc.max_id + 1
  let batch ← (get_pages doc).mapM (fun p =>
    match btGet doc.objects p.2 with
    | some o => Except.ok (p.2, o)
    | none => Except.error Fail.panicked)
  let pages := btExtend pages batch
  let objects := btExtend objects doc.objects
  pure (url_to_page_num, objects, pages, starting_id)

/-- Embeds `merge_pdf_objects` (merge.rs lines 36-67). -/
def merge_pdf_objects (url_to_pdf_doc : List (String × Document)) :
    Res (PdfParts × List (String × Nat)) := do
  let (url_to_page_num, objects, pages, _) ←
    url_to_pdf_doc.foldlM importOne ([], [], [], 1)
  pure ({ objects := objects, pages := pages }, url_to_page_num)

/-- Accumulator of the first scan loop of `build_pdf_from_objects`. -/
structure ScanState where
  catalog_object : Option (OId × Obj)
  destination_ids : List OId
  outlines : List (OId × Dict)
  pages_object : Option (OId × Obj)
  document : Document

/-- The `"Pages"` arm of the scan (merge.rs lines 92-112): merge the new
`Pages` dictionary with the accumulated one (`extend` lets the older fields
overwrite the newer on conflict) and keep the first-seen object id. A
non-dictionary `Pages`-typed object is skipped by the `if let`. -/
def pages_step (pages_object : Option (OId × Obj)) (object_id : OId)
    (object : Obj) : Option (OId × Obj) :=
  match as_dict object with
  | .ok d =>
    let d :=
      match pages_object with
      | some (_, o) =>
        match as_dict o with
        | .ok old => dExtend d old
        | .error _ => d
      | none => d
    some
      (match pages_object with
       | some (id, _) => id
       | none => object_id,
       .dict d)
  | .error _ => pages_object

/-- One iteration of the scan loop (merge.rs lines 78-122), dispatching on
`type_name().unwrap_or("")`. -/
def scanOne (st : ScanState) (kv : OId × Obj) : Res ScanState := do
  let (object_id, object) := kv
  match (type_name object).getD "" with
  | "Catalog" => do
    let st :=
      if st.catalog_object.isNone then
        { st with catalog_object := some (object_id, object) }
      else st
    match as_dict object with
    | .ok dict =>
      match dGet dict "Dests" with
      | some dests => do
        let id ← as_reference dests
        pure { st with destination_ids := st.destination_ids ++ [id] }
      | none => pure st
    | .error _ => pure st
  | "Pages" =>
    pure { st with
      pages_object := pages_step st.pages_object object_id object }
  | "Page" => pure st
  | "Outlines" => do
    let d ← as_dict object
    pure { st with outlines := st.outlines ++ [(object_id, d)] }
  | _ =>
    pure { st with document := setObj st.document object_id object }

/-- The scan loop of `build_pdf_from_objects` over all imported objects. -/
def scanObjects (parts : PdfParts) : Res ScanState :=
  parts.objects.foldlM scanOne
    { catalog_object := none
      destination_ids := []
      outlines := []
      pages_object := none
      document := Document.withVersion }

/-- Destination collection (merge.rs lines 124-135): fold each catalog's
`Dests` dictionary into one (later entries overwrite), deleting the consumed
objects. -/
def collectDests (doc : Document) (ids : List OId) : Res (Dict × Document) :=
  ids.foldlM
    (fun (acc : Dict × Document) id => do
      let d ← get_dictionary acc.2 id
      pure (dExtend acc.1 d, { acc.2 with objects := btRemove id acc.2.objects }))
    ([], doc)

mutual

/-- Structural size of an object, used only to bound the sibling walk of
`merge_outlines` (the Rust walk descends into nested values, so nesting depth
bounds its iterations). -/
def objSize : Obj → Nat
  | .array xs => objSizeList xs + 1
  | .dict d => objSizeEntries d + 1
  | .stream d _ => objSizeEntries d + 1
  | _ => 1

def objSizeList : List Obj → Nat
  | [] => 0
  | o :: t => objSize o + objSizeList t

def objSizeEntries : List (String × Obj) → Nat
  | [] => 0
  | (_, v) :: t => objSize v + objSizeEntries t
end

/-- The sibling walk of `merge_outlines` (merge.rs lines 247-251): while the
cursor dictionary has a `Next`, set its `Parent` and move the cursor to the
object stored under `Next` via `get_mut(b"Next")?.as_dict_mut()?` — which
succeeds only when that stored object is itself a direct dictionary; a
`Next` stored as a reference (the wire format for siblings) makes
`as_dict_mut` fail and the error propagate. After the loop the final
cursor's `Parent` is set. -/
def walk_chain : Nat → Dict → OId → Res Dict
  | 0, _, _ => .error .panicked
  | fuel + 1, d, parent_id =>
    if dHas d "Next" then do
      let d := dSet "Parent" (.ref parent_id) d
      match dGet d "Next" with
      | some (.dict sub) => do
        let sub ← walk_chain fuel sub parent_id
        pure (dSet "Next" (.dict sub) d)
      | some _ => .error (.error "as_dict_mut: not a dictionary")
      | none => .error (.error "missing Next")
    else
      pure (dSet "Parent" (.ref parent_id) d)

/-- One iteration of the `merge_outlines` fold (merge.rs lines 229-260):
add the outline's `Count`, then either seed the accumulator with the first
source's root or splice the new source after the accumulator's `Last`. -/
def outlineStep (st : Int × Option (OId × Dict × OId) × Document)
    (p : OId × Dict) : Res (Int × Option (OId × Dict × OId) × Document) := do
  let (count, state, doc) := st
  let (outline_id, outline_obj) := p
  let c ← require (dGet outline_obj "Count") "missing Count" >>= as_i64
  let count := count + c
  match state with
  | none => do
    let last_item ← require (dGet outline_obj "Last") "missing Last" >>=
      as_reference
    pure (count, some (outline_id, outline_obj, last_item), doc)
  | some (parent_id, parent_obj, last_item_id) => do
    let lastDict ← get_object doc last_item_id >>= as_dict
    let firstId ← require (dGet outline_obj "First") "missing First" >>=
      as_reference
    let doc := setObj doc last_item_id
      (.dict (dSet "Next" (.ref firstId) lastDict))
    let firstDict ← get_object doc firstId >>= as_dict
    let firstDict := dSet "Prev" (.ref last_item_id) firstDict
    let firstDict ← walk_chain (objSizeEntries firstDict + 1) firstDict
      parent_id
    let doc := setObj doc firstId (.dict firstDict)
    let newLast ← require (dGet outline_obj "Last") "missing Last" >>=
      as_reference
    pure (count, some (parent_id, parent_obj, newLast), doc)

/-- Embeds `merge_outlines` (merge.rs lines 222-270). -/
def merge_outlines (document : Document) (outlines : List (OId × Dict)) :
    Res (Option OId × Document) :=
  if outlines.isEmpty then .ok (none, document)
  else do
    let (count, state, doc) ← outlines.foldlM outlineStep (0, none, document)
    match state with
    | none => .error .panicked
    | some (parent_id, parent_obj, last_item_id) =>
      let parent_obj := dSet "Last" (.ref last_item_id)
        (dSet "Count" (.integer count) parent_obj)
      .ok (some parent_id, setObj doc parent_id (.dict parent_obj))

/-- The second half of `build_pdf_from_objects` (merge.rs lines 137-219),
after the scan and the destination collection: abort when no `Pages` object
was seen; re-parent and insert every collected `Page`; merge the outlines;
abort when no `Catalog` was seen; rebuild the `Pages` root with the total
`Count` and the full ordered `Kids` list; rebuild the `Catalog` with the
`Pages`, optional `Outlines` and merged `Dests` fields; point the trailer's
`Root` at it and refresh `max_id`. -/
def buildCore (parts : PdfParts) : Res Document := do
  let st ← scanObjects parts
  let (destinations, document) ← collectDests st.document st.destination_ids
  if st.pages_object.isNone then
    .error (.error "No Pages found.")
  else do
    let pages_object ← match st.pages_object with
      | some po => pure po
      | none => .error .panicked
    let document := parts.pages.foldl
      (fun doc kv =>
        match as_dict kv.2 with
        | .ok d =>
          setObj doc kv.1 (.dict (dSet "Parent" (.ref pages_object.1) d))
        | .error _ => doc)
      document
    let (outlines_id, document) ← merge_outlines document st.outlines
    match st.catalog_object with
    | none => .error (.error "Catalog root not found.")
    | some catalog_object => do
      let document :=
        match as_dict pages_object.2 with
        | .ok dictionary =>
          let dictionary := dSet "Count" (.integer parts.pages.length)
            dictionary
          let dictionary := dSet "Kids"
            (.array (parts.pages.map (fun kv => .ref kv.1))) dictionary
          setObj document pages_object.1 (.dict dictionary)
        | .error _ => document
      let document :=
        match as_dict catalog_object.2 with
        | .ok dictionary =>
          let dictionary := dSet "Pages" (.ref pages_object.1) dictionary
          let dictionary :=
            match outlines_id with
            | none => dictionary
            | some id => dSet "Outlines" (.ref id) dictionary
          let dictionary := dSet "Dests" (.dict destinations) dictionary
          setObj document catalog_object.1 (.dict dictionary)
        | .error _ => document
      let document :=
        { document with
            trailer := dSet "Root" (.ref catalog_object.1) document.trailer }
      let document := { document with max_id := document.objects.length }
      pure document

/-- `Document::adjust_zero_pages` only rewrites entries of the document's
bookmark table, which is populated by the PDF loader and stays empty for the
freshly assembled document, so it is the identity here. -/
def adjust_zero_pages (doc : Document) : Document := doc

/-- `Document::compress` re-encodes stream payloads; stream payloads are kept
abstract (decoded operations), so it is the identity here. -/
def compress (doc : Document) : Document := doc

/-- Embeds `build_pdf_from_objects` (merge.rs lines 69-220): the core
assembly followed by dense renumbering, bookmark adjustment and stream
compression. -/
def build_pdf_from_objects (parts : PdfParts) : Res Document := do
  let document ← buildCore parts
  pure (compress (adjust_zero_pages (renumber_objects document)))

/-- Page-number colour (config.rs lines 18-23); the `f64` channels are
modelled as rationals. -/
structure Color where
  r : Rat
  g : Rat
  b : Rat

/-- Embeds `Color::valid` (config.rs lines 26-44). -/
def Color.valid (c : Color) : Res Unit :=
  let invalid : List String :=
    (if c.r < 0 || c.r > 1 then ["r"] else []) ++
    (if c.g < 0 || c.g > 1 then ["g"] else []) ++
    (if c.b < 0 || c.b > 1 then ["b"] else [])
  if !invalid.isEmpty then
    .error (.error
      ("Channel values must for be in range 0.0 to 1.0. Invalid channel(s) "
        ++ String.intercalate "," invalid))
  else
    .ok ()

/-- Page-number style (config.rs lines 49-60). -/
structure PageNumber where
  color : Color
  font : String
  size : Int
  x : Rat
  y : Rat

/-- The font whitelist of `PageNumber::valid` (config.rs lines 65-78),
byte-for-byte as in the source: twelve entries whose separators are the
Unicode minus sign U+2212, not the ASCII hyphen. -/
def type1_fonts : List String :=
  ["Times−Roman",
   "Times−Bold",
   "Times−Italic",
   "Times−BoldItalic",
   "Helvetica",
   "Helvetica−Bold",
   "Helvetica−Oblique",
   "Helvetica−BoldOblique",
   "Courier",
   "Courier−Bold",
   "Courier−Oblique",
   "Courier−BoldOblique"]

/-- Embeds `PageNumber::valid` (config.rs lines 62-87). -/
def PageNumber.valid (p : PageNumber) : Res Unit := do
  p.color.valid
  if type1_fonts.contains p.font then .ok ()
  else
    .error (.error ("Invalid font name " ++ p.font ++
      ". Only PDF Type 1 Fonts are supported"))

/-- The slice of the loaded `Config` (config.rs lines 92-112) that the merge
engine consumes: the base site url and the optional numbering style. -/
structure Config where
  url : String
  page_number : Option PageNumber

/-- Rust's `str::split(char)`: split at every occurrence of the character,
keeping empty segments (so a trailing separator yields a final `""`). -/
def splitOnCharAux (c : Char) : List Char → List Char → List String
  | [], acc => [String.mk acc.reverse]
  | x :: t, acc =>
    if x = c then String.mk acc.reverse :: splitOnCharAux c t []
    else splitOnCharAux c t (x :: acc)

/-- Split a string at a character, Rust `split(char)` semantics. -/
def splitOnChar (c : Char) (s : String) : List String :=
  splitOnCharAux c s.data []

/-- Rust's `str::starts_with`. -/
def strStartsWith (s p : String) : Bool :=
  p.data.isPrefixOf s.data

/-- Rust's `str::contains(char)`. -/
def charContains (s : String) (c : Char) : Bool :=
  s.data.contains c

/-- Rust's `str::is_empty`. -/
def strIsEmpty (s : String) : Bool :=
  s.data.isEmpty

/-- Assoc lookup in a string-keyed `IndexMap`. -/
def strGet {α : Type} (m : List (String × α)) (k : String) : Option α :=
  match m with
  | [] => none
  | (k', v) :: t => if k = k' then some v else strGet t k

/-- Accumulators of the link-rewriting scan (merge.rs lines 285-288). -/
structure RwState where
  problem_anchors : List String
  problem_urls : List String
  anchors_to_rewrite : List (OId × Obj)
  urls_to_rewrite : List (OId × OId)

/-- Annots collection for one page (merge.rs lines 295-315). When `Annots`
is an indirect reference, the code unwraps `as_array` (panicking on
non-arrays), silently skips elements that are not references to
dictionaries, and — as written — pairs every collected dictionary with the
id of the `Annots` array object itself. When `Annots` is a direct array,
element failures propagate with `?`. -/
def collectAnnots (doc : Document) (page_id : OId) : Res (List (OId × Dict)) :=
  match get_dictionary doc page_id with
  | .error _ => .ok []
  | .ok page =>
    match dGet page "Annots" with
    | some (.ref id) =>
      match get_object doc id >>= as_array with
      | .error _ => .error .panicked
      | .ok arr =>
        .ok ((arr.filterMap (fun o =>
            match o with
            | .ref r => some r
            | _ => none)).filterMap (fun aid =>
          match get_dictionary doc aid with
          | .ok d => some (id, d)
          | .error _ => none))
    | some (.array arr) =>
      arr.mapM (fun o => do
        let aid ← as_reference o
        let d ← get_dictionary doc aid
        pure (aid, d))
    | _ => .ok []

/-- Classification of one Link annotation (merge.rs lines 318-379): resolve
an `A`-action URI against the base url, splitting off the last `/`-segment
and a possible `#`-fragment, and stage a rewrite on a hit or record a
problem entry on a miss; without an `A` dictionary, resolve a name-valued
`Dest` against the named destinations. -/
def classifyAnnot (conf : Config) (doc : Document) (dests : Dict)
    (url_to_page_id : List (String × OId)) (page_num : Nat) (st : RwState)
    (a : OId × Dict) : Res RwState := do
  let subtype :=
    match get_deref a.2 "Subtype" doc >>= as_name with
    | .ok n => n
    | .error _ => ""
  if subtype = "Link" then
    match get_deref a.2 "A" doc >>= as_dict with
    | .ok ahref => do
      let url ← require (dGet ahref "URI") "missing URI" >>= as_string
      if !strStartsWith url conf.url then pure st
      else do
        let parts := splitOnChar '/' url
        let page ← require parts.getLast? "Error extracting page from URI"
        let url := if strIsEmpty page then url ++ "index.html" else url
        if charContains page '#' then do
          let anchor ← require (splitOnChar '#' page).getLast?
            "Error extracting anchor from URI"
          match dGet dests anchor with
          | some dest =>
            pure { st with
              anchors_to_rewrite := st.anchors_to_rewrite ++ [(a.1, dest)] }
          | none =>
            pure { st with
              problem_anchors := st.problem_anchors ++
                ["Page No. " ++ toString (page_num + 1) ++ ": " ++ url] }
        else
          match strGet url_to_page_id url with
          | some page_id =>
            pure { st with
              urls_to_rewrite := st.urls_to_rewrite ++ [(a.1, page_id)] }
          | none =>
            pure { st with
              problem_urls := st.problem_urls ++
                ["Page No. " ++ toString (page_num + 1) ++ ": " ++ url] }
    | .error _ =>
      match require (dGet a.2 "Dest") "missing Dest" >>= as_name with
      | .ok anchor =>
        match dGet dests anchor with
        | some dest =>
          pure { st with
            anchors_to_rewrite := st.anchors_to_rewrite ++ [(a.1, dest)] }
        | none =>
          pure { st with
            problem_anchors := st.problem_anchors ++
              ["Page No. " ++ toString (page_num + 1) ++ ": " ++ anchor] }
      | .error _ => pure st
  else
    pure st

/-- The first staged-rewrite loop (merge.rs lines 382-386): set the resolved
destination value as `Dest`; nothing else on the annotation is touched. -/
def apply_anchor_rewrite (doc : Document) (p : OId × Obj) : Res Document := do
  let annot ← get_dictionary doc p.1
  pure (setObj doc p.1 (.dict (dSet "Dest" p.2 annot)))

/-- The second staged-rewrite loop (merge.rs lines 388-394): delete the
external `A` action and set `Dest` to `[page_id, /Fit]`. -/
def apply_url_rewrite (doc : Document) (p : OId × OId) : Res Document := do
  let annot ← get_dictionary doc p.1
  pure (setObj doc p.1
    (.dict (dSet "Dest" (.array [.ref p.2, .name "Fit"]) (dRemove "A" annot))))

/-- The url → page-id map construction (merge.rs lines 277-283): each url's
recorded zero-based ordinal plus one is looked up in the document's 1-based
page map with an unchecked `get(..).unwrap()`, so a missing page number is a
panic, not an error. -/
def build_url_to_page_id (doc : Document)
    (url_to_page_num : List (String × Nat)) : Res (List (String × OId)) :=
  let page_num_to_id := get_pages doc
  url_to_page_num.mapM (fun p =>
    match natGet page_num_to_id (p.2 + 1) with
    | some pid => Except.ok (p.1, pid)
    | none => Except.error Fail.panicked)

/-- Embeds `rewrite_vitepress_links` (merge.rs lines 272-397): build the
url → page-id map, read the named destinations, scan every page's Link
annotations, then apply the staged anchor and url rewrites and return the
two problem lists. -/
def rewrite_vitepress_links (conf : Config) (doc : Document)
    (url_to_page_num : List (String × Nat)) :
    Res ((List String × List String) × Document) := do
  let url_to_page_id ← build_url_to_page_id doc url_to_page_num
  let dests ← get_named_dests doc
  let st ← (page_iter doc).enum.foldlM
    (fun st pp => do
      let annots ← collectAnnots doc pp.2
      annots.foldlM (classifyAnnot conf doc dests url_to_page_id pp.1) st)
    ⟨[], [], [], []⟩
  let doc ← st.anchors_to_rewrite.foldlM apply_anchor_rewrite doc
  let doc ← st.urls_to_rewrite.foldlM apply_url_rewrite doc
  pure ((st.problem_urls, st.problem_anchors), doc)

/-- The unbounded `while fonts.has(F{n})` search for the lowest free local
font slot (merge.rs lines 422-425); `fonts.len() + 1` probes always reach a
free slot, so the fuel only makes the recursion structural. -/
def findFreeFontAux (fonts : Dict) : Nat → Nat → Nat
  | 0, n => n
  | fuel + 1, n =>
    if dHas fonts ("F" ++ toString n) then findFreeFontAux fonts fuel (n + 1)
    else n

/-- First unused local font slot number, starting the probe at 1. -/
def findFreeFont (fonts : Dict) : Nat :=
  findFreeFontAux fonts (fonts.length + 1) 1

/-- The content operations appended for one page (merge.rs lines 431-468):
begin text, fill colour, font and size, the vertically flipping text matrix
translated by the offsets at 300 units per inch, the page-number string, end
text. -/
def pageNumberOps (style : PageNumber) (font_num : Nat) (page_num : Nat) :
    List (String × List Obj) :=
  [("BT", []),
   ("rg", [.real style.color.r, .real style.color.g, .real style.color.b]),
   ("Tf", [.name ("F" ++ toString font_num), .integer style.size]),
   ("Tm", [.integer 1, .integer 0, .integer 0, .integer (-1),
           .real (style.x * 300), .real (style.y * 300)]),
   ("Tj", [.string ("Page " ++ toString page_num)]),
   ("ET", [])]

/-- The per-page font binding (merge.rs lines 411-429): when the page has a
direct `Resources` dictionary with a direct `Font` dictionary, bind the
shared font object at the first free `F{n}` slot; a present but
non-dictionary value panics through `as_dict_mut().unwrap()`; an absent
`Resources` or `Font` leaves everything unbound (and `font_num` at 1). -/
def bindFont (doc : Document) (page_id : OId) (font_id : OId) :
    Res (Nat × Document) :=
  match get_dictionary doc page_id with
  | .error _ => .ok (1, doc)
  | .ok page =>
    match dGet page "Resources" with
    | none => .ok (1, doc)
    | some (.dict rd) =>
      match dGet rd "Font" with
      | none => .ok (1, doc)
      | some (.dict fd) =>
        let n := findFreeFont fd
        let fd := dSet ("F" ++ toString n) (.ref font_id) fd
        let rd := dSet "Font" (.dict fd) rd
        let page := dSet "Resources" (.dict rd) page
        .ok (n, setObj doc page_id (.dict page))
      | some _ => .error .panicked
    | some _ => .error .panicked

/-- `Document::add_to_page_content` for the shapes this pipeline produces: a
page whose `Contents` is a reference to one content stream gets the new
operations appended after the existing ones. -/
def add_to_page_content (doc : Document) (page_id : OId)
    (ops : List (String × List Obj)) : Res Document := do
  let page ← get_dictionary doc page_id
  let cref ← require (dGet page "Contents") "missing Contents" >>=
    as_reference
  match btGet doc.objects cref with
  | some (.stream sd old) => pure (setObj doc cref (.stream sd (old ++ ops)))
  | _ => .error (.error "content stream not found")

/-- The per-page body of the `add_page_numbers` loop: bind the shared font
locally, then append the page-number text block to the page's content. -/
def numberPage (style : PageNumber) (font_id : OId) (doc : Document)
    (pp : Nat × OId) : Res Document := do
  let (font_num, doc) ← bindFont doc pp.2 font_id
  add_to_page_content doc pp.2 (pageNumberOps style font_num pp.1)

/-- Embeds `add_page_numbers` (merge.rs lines 399-474): a no-op without a
configured style; otherwise register one shared font object and, for every
page in ascending 1-based page order, bind it locally and append the
page-number text block. -/
def add_page_numbers (doc : Document) (conf : Config) : Res Document :=
  match conf.page_number with
  | none => .ok doc
  | some style =>
    let (font_id, doc) := add_object doc
      (.dict [("Type", .name "Font"), ("Subtype", .name "Type1"),
              ("BaseFont", .name style.font)])
    (get_pages doc).foldlM (numberPage style font_id) doc

/-- Embeds `merge_pdfs` (merge.rs lines 476-520). Loading a source PDF from
disk is I/O, so each source arrives as an already-run load result and a
failed load propagates with `?`. A successful return value carries the
document written to the output path together with the two problem lists and
the success flag (`ExitCode::SUCCESS` exactly when both lists are empty); an
`.error` return means the merge aborted before `save`, writing nothing. -/
def merge_pdfs (conf : Config)
    (url_to_pdf_load : List (String × Res Document)) :
    Res (Document × List String × List String × Bool) := do
  let url_to_pdf_doc ← url_to_pdf_load.mapM (fun p => do
    let d ← p.2
    pure (p.1, d))
  let (parts, url_to_page_num) ← merge_pdf_objects url_to_pdf_doc
  let pdf ← build_pdf_from_objects parts
  let ((problem_urls, problem_anchors), pdf) ←
    rewrite_vitepress_links conf pdf url_to_page_num
  let pdf ← add_page_numbers pdf conf
  pure (pdf, problem_urls, problem_anchors,
    problem_urls.isEmpty && problem_anchors.isEmpty)

/-! Concrete documents used as witnesses and counterexamples. They mirror the
repository's own test generators (`generate_pdf_with_link`,
`generate_pdf_with_outline`) with the ids the `lopdf` calls would assign. -/

/-- A one-page document whose single Link annotation carries a URI action,
as built by `generate_pdf_with_link` (merge.rs tests, lines 532-590). -/
def mkLinkDoc (url : String) : Document :=
  { objects :=
      [((1, 0), .dict [("Type", .name "Pages"),
          ("Kids", .array [.ref (7, 0)]), ("Count", .integer 1)]),
       ((2, 0), .dict [("Type", .name "Font"), ("Subtype", .name "Type1"),
          ("BaseFont", .name "Courier")]),
       ((3, 0), .dict [("Font", .dict [("F1", .ref (2, 0))])]),
       ((4, 0), .stream []
          [("BT", []), ("Tf", [.name "F1", .integer 48]),
           ("Td", [.integer 100, .integer 600]),
           ("Tj", [.string "Hello World!"]), ("ET", [])]),
       ((5, 0), .dict [("Type", .name "Action"), ("S", .name "URI"),
          ("URI", .string url)]),
       ((6, 0), .dict [("Type", .name "Annot"), ("Subtype", .name "Link"),
          ("Rect", .array [.integer 0, .integer 0, .integer 595,
            .integer 842]),
          ("F", .integer 4),
          ("Border", .array [.integer 1, .integer 1, .integer 1]),
          ("A", .ref (5, 0))]),
       ((7, 0), .dict [("Type", .name "Page"), ("Parent", .ref (1, 0)),
          ("Contents", .ref (4, 0)), ("Resources", .ref (3, 0)),
          ("MediaBox", .array [.integer 0, .integer 0, .integer 595,
            .integer 842]),
          ("Annots", .array [.ref (6, 0)])]),
       ((8, 0), .dict [("Type", .name "Catalog"), ("Pages", .ref (1, 0))])]
    trailer := [("Root", .ref (8, 0))]
    max_id := 8 }

/-- Like `mkLinkDoc`, but the catalog also carries a `Dests` table binding
the anchor name `intro` to a destination array. -/
def mkAnchorTargetDoc (url : String) : Document :=
  { objects :=
      [((1, 0), .dict [("Type", .name "Pages"),
          ("Kids", .array [.ref (7, 0)]), ("Count", .integer 1)]),
       ((2, 0), .dict [("Type", .name "Font"), ("Subtype", .name "Type1"),
          ("BaseFont", .name "Courier")]),
       ((3, 0), .dict [("Font", .dict [("F1", .ref (2, 0))])]),
       ((4, 0), .stream []
          [("BT", []), ("Tj", [.string "Hello World!"]), ("ET", [])]),
       ((5, 0), .dict [("Type", .name "Action"), ("S", .name "URI"),
          ("URI", .string url)]),
       ((6, 0), .dict [("Type", .name "Annot"), ("Subtype", .name "Link"),
          ("A", .ref (5, 0))]),
       ((7, 0), .dict [("Type", .name "Page"), ("Parent", .ref (1, 0)),
          ("Contents", .ref (4, 0)), ("Resources", .ref (3, 0)),
          ("Annots", .array [.ref (6, 0)])]),
       ((8, 0), .dict [("Type", .name "Catalog"), ("Pages", .ref (1, 0)),
          ("Dests", .ref (9, 0))]),
       ((9, 0), .dict [("intro",
          .array [.ref (7, 0), .name "XYZ", .integer 0, .integer 100,
            .null])])]
    trailer := [("Root", .ref (8, 0))]
    max_id := 9 }

/-- A one-page document with a three-node outline (root, one top-level child
owning two children), as built by `generate_pdf_with_outline` (merge.rs
tests, lines 592-689). The `Count` of the outline root is a parameter so a
malformed (non-descendant-counting) value can be fed through the merge. -/
def mkOutlineDoc (rootCount : Int) : Document :=
  { objects :=
      [((1, 0), .dict [("Type", .name "Pages"),
          ("Kids", .array [.ref (8, 0)]), ("Count", .integer 1)]),
       ((2, 0), .dict [("Type", .name "Font"), ("Subtype", .name "Type1"),
          ("BaseFont", .name "Courier")]),
       ((3, 0), .dict [("Font", .dict [("F1", .ref (2, 0))])]),
       ((4, 0), .stream []
          [("BT", []), ("Tj", [.string "Hello World!"]), ("ET", [])]),
       ((5, 0), .dict [("Type", .name "Outlines"), ("First", .ref (6, 0)),
          ("Last", .ref (6, 0)), ("Count", .integer rootCount)]),
       ((6, 0), .dict [("Title", .string "Node 1"), ("Parent", .ref (5, 0)),
          ("First", .ref (7, 0)), ("Last", .ref (7, 0)),
          ("Count", .integer 1)]),
       ((7, 0), .dict [("Title", .string "Node 2"), ("Parent", .ref (6, 0)),
          ("Count", .integer 1)]),
       ((8, 0), .dict [("Type", .name "Page"), ("Parent", .ref (1, 0)),
          ("Contents", .ref (4, 0)), ("Resources", .ref (3, 0))]),
       ((9, 0), .dict [("Type", .name "Catalog"), ("Pages", .ref (1, 0)),
          ("Outlines", .ref (5, 0))])]
    trailer := [("Root", .ref (9, 0))]
    max_id := 9 }

/-- A one-page document whose outline has TWO top-level siblings linked by an
indirect `Next`/`Prev` reference, the shape the PDF format prescribes for
sibling chains. -/
def mkWideOutlineDoc : Document :=
  { objects :=
      [((1, 0), .dict [("Type", .name "Pages"),
          ("Kids", .array [.ref (8, 0)]), ("Count", .integer 1)]),
       ((4, 0), .stream []
          [("BT", []), ("Tj", [.string "Hello World!"]), ("ET", [])]),
       ((5, 0), .dict [("Type", .name "Outlines"), ("First", .ref (6, 0)),
          ("Last", .ref (7, 0)), ("Count", .integer 2)]),
       ((6, 0), .dict [("Title", .string "Node A"), ("Parent", .ref (5, 0)),
          ("Next", .ref (7, 0)), ("Count", .integer 0)]),
       ((7, 0), .dict [("Title", .string "Node B"), ("Parent", .ref (5, 0)),
          ("Prev", .ref (6, 0)), ("Count", .integer 0)]),
       ((8, 0), .dict [("Type", .name "Page"), ("Parent", .ref (1, 0)),
          ("Contents", .ref (4, 0))]),
       ((9, 0), .dict [("Type", .name "Catalog"), ("Pages", .ref (1, 0)),
          ("Outlines", .ref (5, 0))])]
    trailer := [("Root", .ref (9, 0))]
    max_id := 9 }

/-- A two-page document whose page tree lists its pages in the opposite of
their numeric object-id order: the tree's first page is object `(3,0)`
(marker name `A`), its second is object `(2,0)` (marker name `B`). -/
def mkSwappedPagesDoc : Document :=
  { objects :=
      [((1, 0), .dict [("Type", .name "Pages"),
          ("Kids", .array [.ref (3, 0), .ref (2, 0)]),
          ("Count", .integer 2)]),
       ((2, 0), .dict [("Type", .name "Page"), ("Parent", .ref (1, 0)),
          ("Mk", .name "B")]),
       ((3, 0), .dict [("Type", .name "Page"), ("Parent", .ref (1, 0)),
          ("Mk", .name "A")]),
       ((4, 0), .dict [("Type", .name "Catalog"), ("Pages", .ref (1, 0))])]
    trailer := [("Root", .ref (4, 0))]
    max_id := 4 }

/-- A well-formed document with a catalog and a page tree but zero pages. -/
def mkZeroPageDoc : Document :=
  { objects :=
      [((1, 0), .dict [("Type", .name "Pages"), ("Kids", .array []),
          ("Count", .integer 0)]),
       ((2, 0), .dict [("Type", .name "Catalog"), ("Pages", .ref (1, 0))])]
    trailer := [("Root", .ref (2, 0))]
    max_id := 2 }

/-- Like `mkLinkDoc`, but the Link annotation's `A` dictionary is a `GoTo`
action carrying no `URI` entry at all. -/
def mkGoToLinkDoc : Document :=
  { objects :=
      [((1, 0), .dict [("Type", .name "Pages"),
          ("Kids", .array [.ref (7, 0)]), ("Count", .integer 1)]),
       ((4, 0), .stream []
          [("BT", []), ("Tj", [.string "Hello World!"]), ("ET", [])]),
       ((5, 0), .dict [("Type", .name "Action"), ("S", .name "GoTo"),
          ("D", .array [.ref (7, 0), .name "Fit"])]),
       ((6, 0), .dict [("Type", .name "Annot"), ("Subtype", .name "Link"),
          ("A", .ref (5, 0))]),
       ((7, 0), .dict [("Type", .name "Page"), ("Parent", .ref (1, 0)),
          ("Contents", .ref (4, 0)), ("Annots", .array [.ref (6, 0)])]),
       ((8, 0), .dict [("Type", .name "Catalog"), ("Pages", .ref (1, 0))])]
    trailer := [("Root", .ref (8, 0))]
    max_id := 8 }

/-- The configuration the repository's `test_rewrite_urls` uses, reduced to
the fields the merge engine consumes. -/
def testConf : Config := { url := "http://example.com", page_number := none }

/-- Keys of a dictionary are pairwise distinct (true of every dictionary a
linked hash map can represent). -/
def keysND (d : Dict) : Prop := (d.map Prod.fst).Nodup

instance (d : Dict) : Decidable (keysND d) := by
  unfold keysND; infer_instance

def c1wAnnot : Dict := [("Subtype", .name "Link"), ("A", .ref (2, 0))]

def c1wDoc : Document :=
  { objects := [((1, 0), .dict c1wAnnot)], trailer := [], max_id := 2 }

/-- The `Count` entry of an outline dictionary, read the way `as_i64`
accepts it (defaulting to 0; the default is never hit on a successful
merge, where every `Count` was fetched with `?` and converted). -/
def countOf (d : Dict) : Int :=
  match dGet d "Count" with
  | some (.integer i) => i
  | _ => 0

/-- Sum of the sources' stated root counts. -/
def sumCounts (outlines : List (OId × Dict)) : Int :=
  (outlines.map (fun p => countOf p.2)).sum

def c5wDoc : Document :=
  { objects :=
      [((6, 0), .dict [("Title", .string "A")]),
       ((16, 0), .dict [("Title", .string "B")])]
    trailer := []
    max_id := 16 }

/-- Two single-child outline roots whose stated counts (5 and 7) are not the
true descendant counts of their trees. -/
def c5wOutlines : List (OId × Dict) :=
  [((5, 0), [("Type", .name "Outlines"), ("First", .ref (6, 0)),
     ("Last", .ref (6, 0)), ("Count", .integer 5)]),
   ((15, 0), [("Type", .name "Outlines"), ("First", .ref (16, 0)),
     ("Last", .ref (16, 0)), ("Count", .integer 7)])]

def c6wOld : Dict := [("Type", .name "Pages"), ("X", .name "one")]

def c6wNew : Dict :=
  [("Type", .name "Pages"), ("X", .name "two"), ("Y", .name "extra")]

/-- Support objects for the outline-splice runs: the first source's single
top-level child `S`, the second source's two reference-linked top-level
siblings `A → B`, and a lone child `C` for the single-node variant. -/
def c3Doc : Document :=
  { objects :=
      [((6, 0), .dict [("Title", .string "S")]),
       ((16, 0), .dict [("Title", .string "A"), ("Next", .ref (17, 0))]),
       ((17, 0), .dict [("Title", .string "B"), ("Prev", .ref (16, 0))]),
       ((18, 0), .dict [("Title", .string "C")])]
    trailer := []
    max_id := 18 }

/-- Outline roots where the second source's top-level chain has two nodes,
`Next`/`Prev`-linked through indirect references as the format prescribes. -/
def c3Outlines : List (OId × Dict) :=
  [((5, 0), [("Type", .name "Outlines"), ("First", .ref (6, 0)),
     ("Last", .ref (6, 0)), ("Count", .integer 1)]),
   ((15, 0), [("Type", .name "Outlines"), ("First", .ref (16, 0)),
     ("Last", .ref (17, 0)), ("Count", .integer 2)])]

/-- The same splice with a single-node second chain. -/
def c3OutlinesSingle : List (OId × Dict) :=
  [((5, 0), [("Type", .name "Outlines"), ("First", .ref (6, 0)),
     ("Last", .ref (6, 0)), ("Count", .integer 1)]),
   ((15, 0), [("Type", .name "Outlines"), ("First", .ref (18, 0)),
     ("Last", .ref (18, 0)), ("Count", .integer 2)])]

/-- A document whose catalog has neither a `Dests` entry nor a `Names`
entry. -/
def c4Doc : Document :=
  { objects :=
      [((1, 0), .dict [("Type", .name "Catalog"), ("Pages", .ref (2, 0))]),
       ((2, 0), .dict [("Type", .name "Pages"), ("Kids", .array []),
          ("Count", .integer 0)])]
    trailer := [("Root", .ref (1, 0))]
    max_id := 2 }

/-- Parts of a one-page source already in imported form: a `Pages` root, one
`Page`, a `Catalog`. -/
def c4wParts : PdfParts :=
  { objects :=
      [((1, 0), .dict [("Type", .name "Pages"),
          ("Kids", .array [.ref (2, 0)]), ("Count", .integer 1)]),
       ((2, 0), .dict [("Type", .name "Page"), ("Parent", .ref (1, 0))]),
       ((3, 0), .dict [("Type", .name "Catalog"), ("Pages", .ref (1, 0))])]
    pages := [((2, 0), .dict [("Type", .name "Page"),
      ("Parent", .ref (1, 0))])] }

/-- A document whose catalog holds a direct `Dests` dictionary. -/
def c4wDirectDoc : Document :=
  { objects :=
      [((1, 0), .dict [("Type", .name "Catalog"),
          ("Dests", .dict [("a", .null)])])]
    trailer := [("Root", .ref (1, 0))]
    max_id := 1 }

/-- A minimal site configuration with base url `b`. -/
def shortConf : Config := { url := "b", page_number := none }

/-- Imported parts holding a catalog but no `Pages`-typed object. -/
def c7wNoPages : PdfParts :=
  { objects := [((1, 0), .dict [("Type", .name "Catalog")])], pages := [] }

/-- Imported parts holding a `Pages` root but no catalog. -/
def c7wNoCatalog : PdfParts :=
  { objects := [((1, 0), .dict [("Type", .name "Pages"),
      ("Kids", .array []), ("Count", .integer 0)])]
    pages := [] }

/-- A document holding the first outline's last child, for the splice that
then fails on a second outline without `First`. -/
def c7wD2 : Document :=
  { objects := [((7, 0), .dict [("Title", .string "T")])]
    trailer := []
    max_id := 7 }

/-- A Link annotation whose action has a URI with an anchor fragment. -/
def c7wAnnot : Dict := [("Subtype", .name "Link"), ("A", .ref (1, 0))]

/-- A Link annotation whose action has a fragment-less URI. -/
def c7wAnnot2 : Dict := [("Subtype", .name "Link"), ("A", .ref (2, 0))]

/-- The document resolving the two annotations' actions. -/
def c7wDoc : Document :=
  { objects :=
      [((1, 0), .dict [("S", .name "URI"), ("URI", .string "b/x.h#z")]),
       ((2, 0), .dict [("S", .name "URI"), ("URI", .string "b/y.h")])]
    trailer := []
    max_id := 2 }

/-- A page with its own direct `Resources`/`Font` dictionaries whose `F1`
slot is already taken by the body font. -/
def c9wPage : Dict :=
  [("Type", .name "Page"), ("Parent", .ref (1, 0)),
   ("Resources", .dict [("Font", .dict [("F1", .ref (5, 0))])]),
   ("Contents", .ref (3, 0))]

def c9wDoc : Document :=
  { objects :=
      [((2, 0), .dict c9wPage),
       ((3, 0), .stream [] [("BT", []), ("ET", [])])]
    trailer := []
    max_id := 5 }

def c9wStyle : PageNumber :=
  { color := { r := 0, g := 0, b := 0 }, font := "Helvetica", size := 12,
    x := 1, y := 1 }

mutual

/-- All object ids referenced inside a value. -/
def refsIn : Obj → List OId
  | .ref id => [id]
  | .array xs => refsInList xs
  | .dict d => refsInEntries d
  | .stream d ops => refsInEntries d ++ refsInOps ops
  | .null => []
  | .boolean _ => []
  | .integer _ => []
  | .real _ => []
  | .string _ => []
  | .name _ => []

def refsInList : List Obj → List OId
  | [] => []
  | o :: t => refsIn o ++ refsInList t

def refsInEntries : List (String × Obj) → List OId
  | [] => []
  | (_, v) :: t => refsIn v ++ refsInEntries t

def refsInOps : List (String × List Obj) → List OId
  | [] => []
  | (_, args) :: t => refsInList args ++ refsInOps t
end

/-- Every reference in the document (object values and trailer) resolves to
a present object: the shape `lopdf` guarantees after a successful load. -/
def RefsClosed (doc : Document) : Prop :=
  (∀ kv ∈ doc.objects, ∀ r ∈ refsIn kv.2,
    (btGet doc.objects r).isSome = true) ∧
  (∀ r ∈ refsInEntries doc.trailer, (btGet doc.objects r).isSome = true)

instance (doc : Document) : Decidable (RefsClosed doc) := by
  unfold RefsClosed; infer_instance

/-- A well-formed source for the import fold: closed references and a page
tree visiting each page object once. -/
def SrcOk (d : Document) : Prop :=
  RefsClosed d ∧ (page_iter d).Nodup

instance (d : Document) : Decidable (SrcOk d) := by
  unfold SrcOk; infer_instance

/-- Total number of pages contributed by a list of sources, counted by each
source's own page-tree traversal. -/
def pagesTotal (srcs : List (String × Document)) : Nat :=
  (srcs.map (fun e => (page_iter e.2).length)).sum

/-- A one-page, three-object source (page tree, page, catalog) used to
witness the merge-wide page bookkeeping. -/
def c2wDoc : Document :=
  { objects :=
      [((1, 0), .dict [("Type", .name "Pages"),
          ("Kids", .array [.ref (2, 0)]), ("Count", .integer 1)]),
       ((2, 0), .dict [("Type", .name "Page"), ("Parent", .ref (1, 0))]),
       ((3, 0), .dict [("Type", .name "Catalog"), ("Pages", .ref (1, 0))])]
    trailer := [("Root", .ref (3, 0))]
    max_id := 3 }

/-- Singleton source list for the C2 witness. -/
def c2wSrcs : List (String × Document) := [("u", c2wDoc)]

/-- The C2 witness pipeline stages, taken from the embedding itself so the
witness hypotheses hold by computation. -/
def c2wRes : Res (PdfParts × List (String × Nat)) := merge_pdf_objects c2wSrcs

def c2wParts : PdfParts := (c2wRes.toOption.getD (⟨[], []⟩, [])).1

def c2wU2p : List (String × Nat) := (c2wRes.toOption.getD (⟨[], []⟩, [])).2

def stDefault : ScanState :=
  { catalog_object := none, destination_ids := [], outlines := [],
    pages_object := none, document := Document.withVersion }

def c2wSt : ScanState := (scanObjects c2wParts).toOption.getD stDefault

def c2wDoc0 : Document :=
  (buildCore c2wParts).toOption.getD Document.withVersion

def c2wDocF : Document :=
  (build_pdf_from_objects c2wParts).toOption.getD Document.withVersion

/-- Markers of the pages of a document in page-tree order: each test page
carries a distinguishing `Mk` name. -/
def pageMarkers (doc : Document) : List (Option Obj) :=
  (page_iter doc).map (fun id =>
    (getNodeDict doc id).bind (fun d => dGet d "Mk"))

/-- The merged document's page markers for a source list, through the
real pipeline of importing and building. -/
def pageMarkersRes (srcs : List (String × Document)) :
    Res (List (Option Obj)) := do
  let (parts, _) ← merge_pdf_objects srcs
  let docF ← build_pdf_from_objects parts
  pure (pageMarkers docF)

/-- A two-page site in slim form: a page whose Link annotation holds a
direct URI action pointing at the anchor `intro` of the second source. -/
def c1SlimLink : Document :=
  { objects :=
      [((1, 0), .dict [("Type", .name "Pages"),
          ("Kids", .array [.ref (3, 0)]), ("Count", .integer 1)]),
       ((2, 0), .dict [("Type", .name "Annot"), ("Subtype", .name "Link"),
          ("A", .dict [("S", .name "URI"),
            ("URI", .string "b/2.h#intro")])]),
       ((3, 0), .dict [("Type", .name "Page"), ("Parent", .ref (1, 0)),
          ("Annots", .array [.ref (2, 0)])]),
       ((4, 0), .dict [("Type", .name "Catalog"), ("Pages", .ref (1, 0))])]
    trailer := [("Root", .ref (4, 0))]
    max_id := 4 }

/-- The anchor-owning second source: its catalog references a named
destinations table binding `intro`. -/
def c1SlimTarget : Document :=
  { objects :=
      [((1, 0), .dict [("Type", .name "Pages"),
          ("Kids", .array [.ref (2, 0)]), ("Count", .integer 1)]),
       ((2, 0), .dict [("Type", .name "Page"), ("Parent", .ref (1, 0))]),
       ((3, 0), .dict [("Type", .name "Catalog"), ("Pages", .ref (1, 0)),
          ("Dests", .ref (4, 0))]),
       ((4, 0), .dict [("intro",
          .array [.ref (2, 0), .name "XYZ", .integer 0, .integer 100,
            .null])])]
    trailer := [("Root", .ref (3, 0))]
    max_id := 4 }

/-- `A`-presence and `Dest`-presence of the first annotation of a
document's first page. -/
def firstAnnotFlags (doc : Document) : Option (Bool × Bool) :=
  match page_iter doc with
  | pid :: _ =>
    match getNodeDict doc pid with
    | some pd =>
      match dGet pd "Annots" with
      | some (.array (Obj.ref aid :: _)) =>
        match getNodeDict doc aid with
        | some ad => some (dHas ad "A", dHas ad "Dest")
        | none => none
      | _ => none
    | none => none
  | [] => none

/-- The full merge of the two-source anchor site. -/
def c1AnchorRun : Res (Document × List String × List String × Bool) :=
  merge_pdfs shortConf
    [("b/1.h", .ok c1SlimLink), ("b/2.h", .ok c1SlimTarget)]

/-- Problem lists, success flag and first-annotation flags of the merged
anchor site. -/
def c1Probe :
    Res ((List String × List String × Bool) × Option (Bool × Bool)) := do
  let (doc, pu, pa, flag) ← c1AnchorRun
  pure ((pu, pa, flag), firstAnnotFlags doc)

/-- A one-page source whose Link annotation holds a `GoTo` action with no
`URI` entry. -/
def c7GoToDoc : Document :=
  { objects :=
      [((1, 0), .dict [("Type", .name "Pages"),
          ("Kids", .array [.ref (3, 0)]), ("Count", .integer 1)]),
       ((2, 0), .dict [("Type", .name "Annot"), ("Subtype", .name "Link"),
          ("A", .dict [("S", .name "GoTo"),
            ("D", .array [.ref (3, 0), .name "Fit"])])]),
       ((3, 0), .dict [("Type", .name "Page"), ("Parent", .ref (1, 0)),
          ("Annots", .array [.ref (2, 0)])]),
       ((4, 0), .dict [("Type", .name "Catalog"), ("Pages", .ref (1, 0))])]
    trailer := [("Root", .ref (4, 0))]
    max_id := 4 }

/-- Import and assembly of the `GoTo`-link source, which succeed on their
own. -/
def c7BuildStage : Res Document := do
  let (parts, _) ← merge_pdf_objects [("b/1.h", c7GoToDoc)]
  build_pdf_from_objects parts

/-! Small reusable facts about the dictionary and object-table operations. -/

theorem res_bind_ok {α β : Type} (a : α) (f : α → Res β) :
    (Except.ok a : Res α) >>= f = f a := rfl

theorem res_bind_err {α β : Type} (e : Fail) (f : α → Res β) :
    (Except.error e : Res α) >>= f = Except.error e := rfl

theorem res_pure {α : Type} (a : α) : (pure a : Res α) = Except.ok a := rfl

@[simp] theorem res_isOk_ok {α : Type} (a : α) :
    (Except.ok a : Res α).isOk = true := rfl

@[simp] theorem res_isOk_err {α : Type} (e : Fail) :
    (Except.error e : Res α).isOk = false := rfl

theorem require_some {α : Type} (a : α) (msg : String) :
    require (some a) msg = .ok a := rfl

theorem require_none {α : Type} (msg : String) :
    (require (none : Option α) msg : Res α) = .error (.error msg) := rfl

theorem as_reference_ref (id : OId) : as_reference (.ref id) = .ok id := rfl

theorem as_dict_dict (d : Dict) : as_dict (.dict d) = .ok d := rfl

theorem mapRefs_ref (f : OId → OId) (id : OId) :
    mapRefs f (.ref id) = .ref (f id) := rfl

theorem mapRefs_dict (f : OId → OId) (d : Dict) :
    mapRefs f (.dict d) = .dict (mapRefsEntries f d) := rfl

theorem mapRefs_array (f : OId → OId) (xs : List Obj) :
    mapRefs f (.array xs) = .array (mapRefsList f xs) := rfl

theorem dGet_dSet_same (k : String) (v : Obj) (d : Dict) :
    dGet (dSet k v d) k = some v := by
  induction d with
  | nil => simp [dSet, dGet]
  | cons kv t ih =>
    by_cases h : k = kv.1
    · simp [dSet, h, dGet]
    · simp [dSet, h, dGet, ih]

theorem dGet_dSet_ne (k k' : String) (v : Obj) (d : Dict) (h : k' ≠ k) :
    dGet (dSet k v d) k' = dGet d k' := by
  induction d with
  | nil => simp [dSet, dGet, h]
  | cons kv t ih =>
    by_cases hk : k = kv.1
    · subst hk; simp [dSet, dGet, h, ih]
    · by_cases hk' : k' = kv.1
      · simp [dSet, hk, dGet, hk']
      · simp [dSet, hk, dGet, hk', ih]

theorem dGet_dRemove_ne (k k' : String) (d : Dict) (h : k' ≠ k) :
    dGet (dRemove k d) k' = dGet d k' := by
  induction d with
  | nil => simp [dRemove]
  | cons kv t ih =>
    by_cases hk : k = kv.1
    · subst hk; simp [dRemove, dGet, h]
    · by_cases hk' : k' = kv.1
      · simp [dRemove, hk, dGet, hk']
      · simp [dRemove, hk, dGet, hk', ih]

theorem dGet_eq_none_of_not_mem (k : String) (d : Dict)
    (h : k ∉ d.map Prod.fst) : dGet d k = none := by
  induction d with
  | nil => simp [dGet]
  | cons kv t ih =>
    simp only [List.map_cons, List.mem_cons] at h
    push_neg at h
    simp [dGet, h.1, ih h.2]

theorem dGet_dRemove_self (k : String) (d : Dict) (hnd : keysND d) :
    dGet (dRemove k d) k = none := by
  induction d with
  | nil => simp [dRemove, dGet]
  | cons kv t ih =>
    unfold keysND at hnd
    simp only [List.map_cons, List.nodup_cons] at hnd
    by_cases hk : k = kv.1
    · subst hk
      simpa [dRemove] using dGet_eq_none_of_not_mem _ _ hnd.1
    · simp [dRemove, hk, dGet, ih hnd.2]

theorem dHas_dSet_ne (k k' : String) (v : Obj) (d : Dict) (h : k' ≠ k) :
    dHas (dSet k v d) k' = dHas d k' := by
  simp [dHas, dGet_dSet_ne k k' v d h]

theorem btGet_btInsert_same (k : OId) (v : Obj) (m : List (OId × Obj)) :
    btGet (btInsert k v m) k = some v := by
  induction m with
  | nil => simp [btInsert, btGet]
  | cons kv t ih =>
    by_cases h : k = kv.1
    · simp [btInsert, h, btGet]
    · by_cases hlt : oidLt k kv.1
      · simp [btInsert, h, hlt, btGet]
      · simp [btInsert, h, hlt, btGet, ih]

theorem btGet_btInsert_ne (k k' : OId) (v : Obj) (m : List (OId × Obj))
    (h : k' ≠ k) : btGet (btInsert k v m) k' = btGet m k' := by
  induction m with
  | nil => simp [btInsert, btGet, h]
  | cons kv t ih =>
    by_cases hk : k = kv.1
    · subst hk; simp [btInsert, btGet, h, ih]
    · by_cases hlt : oidLt k kv.1
      · simp [btInsert, hk, hlt, btGet, h]
      · by_cases hk' : k' = kv.1
        · simp [btInsert, hk, hlt, btGet, hk']
        · simp [btInsert, hk, hlt, btGet, hk', ih]

theorem color_valid_iff (c : Color) :
    (Color.valid c).isOk = true ↔
      (0 ≤ c.r ∧ c.r ≤ 1 ∧ 0 ≤ c.g ∧ c.g ≤ 1 ∧ 0 ≤ c.b ∧ c.b ≤ 1) := by
  have h : (Color.valid c).isOk = true ↔
      (¬(c.r < 0 ∨ c.r > 1) ∧ ¬(c.g < 0 ∨ c.g > 1) ∧
       ¬(c.b < 0 ∨ c.b > 1)) := by
    by_cases h1 : c.r < 0 <;> by_cases h2 : c.r > 1 <;>
      by_cases h3 : c.g < 0 <;> by_cases h4 : c.g > 1 <;>
      by_cases h5 : c.b < 0 <;> by_cases h6 : c.b > 1 <;>
      simp [Color.valid, h1, h2, h3, h4, h5, h6]
  rw [h]
  constructor
  · rintro ⟨a, b, d⟩
    push_neg at a b d
    exact ⟨a.1, a.2, b.1, b.2, d.1, d.2⟩
  · rintro ⟨a1, a2, a3, a4, a5, a6⟩
    refine ⟨?_, ?_, ?_⟩ <;> push_neg
    · exact ⟨a1, a2⟩
    · exact ⟨a3, a4⟩
    · exact ⟨a5, a6⟩

/-- C8 (counterexample): the validator rejects `Times-Roman` (spelled with
the ASCII hyphen, as the PDF standard names it) and rejects `Symbol`, both
of which belong to the standard 14 non-embedded Type 1 fonts, even with an
in-range colour — so validation does not accept the standard 14 names: the
source list holds only twelve entries, spelled with U+2212. -/
theorem c8_standard_fonts_rejected :
    (PageNumber.valid
      { color := { r := 0, g := 0, b := 0 }, font := "Times-Roman",
        size := 12, x := 1, y := 1 }).isOk = false ∧
    (PageNumber.valid
      { color := { r := 0, g := 0, b := 0 }, font := "Symbol",
        size := 12, x := 1, y := 1 }).isOk = false ∧
    (Color.valid { r := 0, g := 0, b := 0 }).isOk = true := by
  refine ⟨?_, ?_, ?_⟩ <;> decide

/-- C8 (amended): validation accepts exactly the twelve font names listed in
the source (the Times, Helvetica and Courier families spelled with a U+2212
minus sign; `Symbol` and `ZapfDingbats` are absent), and accepts an RGB
colour iff every channel lies in `[0, 1]`. -/
theorem c8_validation_characterization (p : PageNumber) :
    (PageNumber.valid p).isOk = true ↔
      (p.font ∈ type1_fonts ∧
       0 ≤ p.color.r ∧ p.color.r ≤ 1 ∧ 0 ≤ p.color.g ∧ p.color.g ≤ 1 ∧
       0 ≤ p.color.b ∧ p.color.b ≤ 1) := by
  constructor
  · intro h
    cases hc : Color.valid p.color with
    | error e =>
      unfold PageNumber.valid at h
      rw [hc, res_bind_err] at h
      simp at h
    | ok u =>
      have hcol := (color_valid_iff p.color).mp (by rw [hc]; rfl)
      unfold PageNumber.valid at h
      rw [hc, res_bind_ok] at h
      by_cases hf : type1_fonts.contains p.font
      · exact ⟨List.elem_iff.mp hf, hcol.1, hcol.2.1, hcol.2.2.1,
          hcol.2.2.2.1, hcol.2.2.2.2.1, hcol.2.2.2.2.2⟩
      · rw [if_neg (by simpa using hf)] at h
        simp at h
  · intro h
    have hcol : (Color.valid p.color).isOk = true :=
      (color_valid_iff p.color).mpr ⟨h.2.1, h.2.2.1, h.2.2.2.1,
        h.2.2.2.2.1, h.2.2.2.2.2.1, h.2.2.2.2.2.2⟩
    cases hc : Color.valid p.color with
    | error e => rw [hc] at hcol; simp at hcol
    | ok u =>
      unfold PageNumber.valid
      rw [hc, res_bind_ok, if_pos (by simpa using List.elem_iff.mpr h.1)]
      rfl

/-- C1 (amended): applying a staged anchor rewrite sets the annotation's
`Dest` to the resolved destination value but leaves the `A` action in place;
applying a staged url rewrite removes `A` and sets `Dest` to
`[pageId, /Fit]`, so only in the url case the annotation afterwards carries
a `Dest` and no `Action`. -/
theorem c1_staged_rewrites (doc : Document) (aid : OId) (ad : Dict)
    (dest : Obj) (pid : OId) (hd : get_dictionary doc aid = .ok ad)
    (hnd : keysND ad) :
    (apply_anchor_rewrite doc (aid, dest) =
        .ok (setObj doc aid (.dict (dSet "Dest" dest ad))) ∧
      dGet (dSet "Dest" dest ad) "Dest" = some dest ∧
      dHas (dSet "Dest" dest ad) "A" = dHas ad "A") ∧
    (apply_url_rewrite doc (aid, pid) =
        .ok (setObj doc aid (.dict (dSet "Dest"
          (.array [.ref pid, .name "Fit"]) (dRemove "A" ad)))) ∧
      dGet (dSet "Dest" (.array [.ref pid, .name "Fit"]) (dRemove "A" ad))
          "Dest" = some (.array [.ref pid, .name "Fit"]) ∧
      dHas (dSet "Dest" (.array [.ref pid, .name "Fit"]) (dRemove "A" ad))
          "A" = false) := by
  refine ⟨⟨?_, ?_, ?_⟩, ?_, ?_, ?_⟩
  · simp [apply_anchor_rewrite, hd, res_bind_ok]
  · exact dGet_dSet_same _ _ _
  · exact dHas_dSet_ne _ _ _ _ (by decide)
  · simp [apply_url_rewrite, hd, res_bind_ok]
  · exact dGet_dSet_same _ _ _
  · rw [dHas_dSet_ne _ _ _ _ (by decide)]
    simp [dHas, dGet_dRemove_self "A" ad hnd]

/-- Witness for `c1_staged_rewrites` at a concrete annotation. -/
theorem c1_staged_rewrites_witness :
    (apply_anchor_rewrite c1wDoc ((1, 0), .name "d") =
        .ok (setObj c1wDoc (1, 0) (.dict (dSet "Dest" (.name "d") c1wAnnot))) ∧
      dGet (dSet "Dest" (.name "d") c1wAnnot) "Dest" = some (.name "d") ∧
      dHas (dSet "Dest" (.name "d") c1wAnnot) "A" = dHas c1wAnnot "A") ∧
    (apply_url_rewrite c1wDoc ((1, 0), (3, 0)) =
        .ok (setObj c1wDoc (1, 0) (.dict (dSet "Dest"
          (.array [.ref (3, 0), .name "Fit"]) (dRemove "A" c1wAnnot)))) ∧
      dGet (dSet "Dest" (.array [.ref (3, 0), .name "Fit"])
          (dRemove "A" c1wAnnot)) "Dest" =
        some (.array [.ref (3, 0), .name "Fit"]) ∧
      dHas (dSet "Dest" (.array [.ref (3, 0), .name "Fit"])
          (dRemove "A" c1wAnnot)) "A" = false) :=
  c1_staged_rewrites c1wDoc (1, 0) c1wAnnot (.name "d") (3, 0) rfl
    (by decide)

theorem res_bind_eq_ok {α β : Type} {x : Res α} {f : α → Res β} {b : β}
    (h : (x >>= f) = .ok b) : ∃ a, x = .ok a ∧ f a = .ok b := by
  cases x with
  | ok a => exact ⟨a, rfl, h⟩
  | error e => rw [res_bind_err] at h; exact absurd h (by simp)

theorem countOf_of_count_read {d : Dict} {m : String} {c : Int}
    (h : (require (dGet d "Count") m >>= as_i64) = .ok c) : countOf d = c := by
  obtain ⟨o, ho, h2⟩ := res_bind_eq_ok h
  cases hg : dGet d "Count" with
  | none => rw [hg] at ho; exact absurd ho (by simp [require])
  | some o' =>
    rw [hg] at ho
    rw [require] at ho
    cases ho
    cases o with
    | integer i => rw [as_i64] at h2; cases h2; simp [countOf, hg]
    | null => exact absurd h2 (by simp [as_i64])
    | boolean b => exact absurd h2 (by simp [as_i64])
    | real r => exact absurd h2 (by simp [as_i64])
    | string s => exact absurd h2 (by simp [as_i64])
    | name n => exact absurd h2 (by simp [as_i64])
    | ref i => exact absurd h2 (by simp [as_i64])
    | array xs => exact absurd h2 (by simp [as_i64])
    | dict dd => exact absurd h2 (by simp [as_i64])
    | stream dd ops => exact absurd h2 (by simp [as_i64])

theorem outlineStep_spec (st : Int × Option (OId × Dict × OId) × Document)
    (p : OId × Dict) (out : Int × Option (OId × Dict × OId) × Document)
    (h : outlineStep st p = .ok out) :
    out.1 = st.1 + countOf p.2 ∧
    (match st.2.1 with
     | some (pid, pobj, _) => ∃ last, out.2.1 = some (pid, pobj, last)
     | none => ∃ last, out.2.1 = some (p.1, p.2, last)) := by
  obtain ⟨c0, st0, d0⟩ := st
  unfold outlineStep at h
  obtain ⟨c, hc, h⟩ := res_bind_eq_ok h
  have hcount := countOf_of_count_read hc
  cases st0 with
  | none =>
    obtain ⟨lid, _, h⟩ := res_bind_eq_ok h
    rw [res_pure] at h
    cases h
    exact ⟨by rw [hcount], lid, rfl⟩
  | some s0 =>
    obtain ⟨pid, pobj, lastid⟩ := s0
    obtain ⟨lastDict, _, h⟩ := res_bind_eq_ok h
    obtain ⟨fid, _, h⟩ := res_bind_eq_ok h
    obtain ⟨fDict, _, h⟩ := res_bind_eq_ok h
    obtain ⟨fDict2, _, h⟩ := res_bind_eq_ok h
    obtain ⟨newLast, _, h⟩ := res_bind_eq_ok h
    rw [res_pure] at h
    cases h
    exact ⟨by rw [hcount], newLast, rfl⟩

theorem outlineFold_spec (l : List (OId × Dict))
    (c0 : Int) (st0 : Option (OId × Dict × OId)) (d0 : Document)
    (out : Int × Option (OId × Dict × OId) × Document)
    (h : l.foldlM outlineStep (c0, st0, d0) = .ok out) :
    out.1 = c0 + sumCounts l ∧
    (match st0 with
     | some (pid, pobj, _) =>
       ∃ last, out.2.1 = some (pid, pobj, last)
     | none =>
       (l = [] ∧ out.2.1 = none) ∨
       ∃ hd rest last, l = hd :: rest ∧ out.2.1 = some (hd.1, hd.2, last)) := by
  induction l generalizing c0 st0 d0 with
  | nil =>
    simp only [List.foldlM] at h
    rw [res_pure] at h
    cases h
    cases st0 with
    | none => exact ⟨by simp [sumCounts], Or.inl ⟨rfl, rfl⟩⟩
    | some s0 =>
      obtain ⟨pid, pobj, lastid⟩ := s0
      exact ⟨by simp [sumCounts], lastid, rfl⟩
  | cons hd rest ih =>
    simp only [List.foldlM] at h
    cases h1 : outlineStep (c0, st0, d0) hd with
    | error e => rw [h1] at h; rw [res_bind_err] at h; exact absurd h (by simp)
    | ok mid =>
      rw [h1, res_bind_ok] at h
      obtain ⟨c1, st1, d1⟩ := mid
      have hstep := outlineStep_spec _ _ _ h1
      have hrec := ih c1 st1 d1 h
      have hs1 : c1 = c0 + countOf hd.2 := hstep.1
      constructor
      · rw [hrec.1, hs1]
        simp [sumCounts]
        ring
      · cases st0 with
        | none =>
          obtain ⟨last1, hst1⟩ := hstep.2
          right
          refine ⟨hd, rest, ?_⟩
          subst hst1
          obtain ⟨last2, hst2⟩ := hrec.2
          exact ⟨last2, rfl, hst2⟩
        | some s0 =>
          obtain ⟨pid, pobj, lastid⟩ := s0
          obtain ⟨last1, hst1⟩ := hstep.2
          subst hst1
          obtain ⟨last2, hst2⟩ := hrec.2
          exact ⟨last2, hst2⟩

/-- C5: when the outline merge succeeds with a root, the root is the first
source's outline object, and the dictionary written back for it carries a
`Count` equal to the plain sum of the sources' stated root counts — the
counts are trusted as read, never recomputed from the tree. -/
theorem c5_outline_count_sum (document : Document)
    (outlines : List (OId × Dict)) (pid : OId) (doc' : Document)
    (h : merge_outlines document outlines = .ok (some pid, doc')) :
    (∃ hd rest, outlines = hd :: rest ∧ pid = hd.1) ∧
    ∃ pd, btGet doc'.objects pid = some (.dict pd) ∧
      dGet pd "Count" = some (.integer (sumCounts outlines)) := by
  unfold merge_outlines at h
  by_cases hemp : outlines.isEmpty
  · rw [if_pos hemp] at h
    cases h
  · rw [if_neg hemp] at h
    cases hfold : outlines.foldlM outlineStep (0, none, document) with
    | error e => rw [hfold] at h; rw [res_bind_err] at h; exact absurd h (by simp)
    | ok out =>
      rw [hfold, res_bind_ok] at h
      obtain ⟨c, st, d⟩ := out
      have hspec := outlineFold_spec outlines 0 none document _ hfold
      rcases hspec.2 with ⟨hnil, _⟩ | ⟨hd, rest, last, hl, hst⟩
      · subst hnil; simp [List.isEmpty] at hemp
      · have hst' : st = some (hd.1, hd.2, last) := hst
        simp only [hst'] at h
        rw [Except.ok.injEq, Prod.mk.injEq] at h
        obtain ⟨hp, hdoc⟩ := h
        rw [Option.some.injEq] at hp
        subst hdoc
        subst hp
        refine ⟨⟨hd, rest, hl, rfl⟩, ?_⟩
        refine ⟨dSet "Last" (.ref last) (dSet "Count" (.integer c) hd.2), ?_, ?_⟩
        · exact btGet_btInsert_same _ _ _
        · rw [dGet_dSet_ne _ _ _ _ (by decide), dGet_dSet_same]
          have hcs : c = sumCounts outlines := by
            have := hspec.1
            simpa using this
          rw [hcs]

/-- Witness for `c5_outline_count_sum`: the malformed counts 5 and 7 are
summed as-is into 12. -/
theorem c5_outline_count_sum_witness :
    ∃ doc', merge_outlines c5wDoc c5wOutlines = .ok (some (5, 0), doc') ∧
      ((∃ hd rest, c5wOutlines = hd :: rest ∧ ((5, 0) : OId) = hd.1) ∧
       ∃ pd, btGet doc'.objects (5, 0) = some (.dict pd) ∧
         dGet pd "Count" = some (.integer (sumCounts c5wOutlines))) :=
  ⟨_, rfl, c5_outline_count_sum c5wDoc c5wOutlines (5, 0) _ rfl⟩

theorem dGet_eq_none_iff (d : Dict) (k : String) :
    dGet d k = none ↔ k ∉ d.map Prod.fst := by
  induction d with
  | nil => simp [dGet]
  | cons kv t ih =>
    by_cases h : k = kv.1
    · simp [dGet, h]
    · simp [dGet, h, ih]

theorem dExtend_nil (base : Dict) : dExtend base [] = base := rfl

theorem dExtend_cons (base : Dict) (kv : String × Obj) (t : Dict) :
    dExtend base (kv :: t) = dExtend (dSet kv.1 kv.2 base) t := rfl

theorem dGet_dExtend_not_mem (base other : Dict) (k : String)
    (h : k ∉ other.map Prod.fst) :
    dGet (dExtend base other) k = dGet base k := by
  induction other generalizing base with
  | nil => rfl
  | cons kv t ih =>
    simp only [List.map_cons, List.mem_cons] at h
    push_neg at h
    rw [dExtend_cons, ih _ h.2, dGet_dSet_ne _ _ _ _ h.1]

theorem dGet_dExtend_mem (base other : Dict) (k : String) (v : Obj)
    (hnd : keysND other) (h : dGet other k = some v) :
    dGet (dExtend base other) k = some v := by
  induction other generalizing base with
  | nil => simp [dGet] at h
  | cons kv t ih =>
    unfold keysND at hnd
    simp only [List.map_cons, List.nodup_cons] at hnd
    rw [dExtend_cons]
    by_cases hk : k = kv.1
    · subst hk
      simp [dGet] at h
      subst h
      rw [dGet_dExtend_not_mem _ _ _ hnd.1, dGet_dSet_same]
    · rw [dGet, if_neg hk] at h
      exact ih _ hnd.2 h

/-- C6: when the scan meets a further `Pages`-typed dictionary, the
accumulated dictionary's id stays the first-seen one and the dictionaries
are merged so that every key already set by an earlier source keeps its
earlier value, while keys absent so far are taken from the later source. -/
theorem c6_pages_first_source_wins (acc : Option (OId × Obj)) (i1 i2 : OId)
    (dOld d2 : Dict) (hacc : acc = some (i1, .dict dOld)) (hnd : keysND dOld) :
    pages_step acc i2 (.dict d2) = some (i1, .dict (dExtend d2 dOld)) ∧
    (∀ k v, dGet dOld k = some v → dGet (dExtend d2 dOld) k = some v) ∧
    (∀ k, dGet dOld k = none → dGet (dExtend d2 dOld) k = dGet d2 k) := by
  subst hacc
  refine ⟨rfl, ?_, ?_⟩
  · intro k v h
    exact dGet_dExtend_mem _ _ _ _ hnd h
  · intro k h
    exact dGet_dExtend_not_mem _ _ _ ((dGet_eq_none_iff _ _).mp h)

/-- Witness for `c6_pages_first_source_wins`: the conflicting key `X` keeps
the first source's value and the fresh key `Y` is taken from the second. -/
theorem c6_pages_first_source_wins_witness :
    pages_step (some ((1, 0), .dict c6wOld)) (9, 0) (.dict c6wNew) =
      some ((1, 0), .dict (dExtend c6wNew c6wOld)) ∧
    dGet (dExtend c6wNew c6wOld) "X" = some (.name "one") ∧
    dGet (dExtend c6wNew c6wOld) "Y" = dGet c6wNew "Y" :=
  ⟨(c6_pages_first_source_wins _ (1, 0) (9, 0) c6wOld c6wNew rfl
      (by decide)).1,
   (c6_pages_first_source_wins _ (1, 0) (9, 0) c6wOld c6wNew rfl
      (by decide)).2.1 "X" (.name "one") rfl,
   (c6_pages_first_source_wins _ (1, 0) (9, 0) c6wOld c6wNew rfl
      (by decide)).2.2 "Y" rfl⟩

/-- C3: splicing a source whose top-level sibling chain has two nodes fails —
the walk moves the cursor with `get_mut(b"Next")?.as_dict_mut()?`, and the
stored `Next` object is a reference, not a dictionary, so the traversal
errors out and the merge aborts; the identical splice whose second chain is
a single node succeeds. The full-chain walk the spec describes never
happens for reference-linked siblings. -/
theorem c3_sibling_walk_fails :
    merge_outlines c3Doc c3Outlines =
      .error (.error "as_dict_mut: not a dictionary") ∧
    (merge_outlines c3Doc c3OutlinesSingle).isOk = true := by
  constructor
  · rfl
  · rfl

/-- C4 (counterexample): on a document whose catalog carries neither
`/Dests` nor `/Names`, building the named-destinations mapping does not
yield an empty table — the lookup failure is propagated as an error. -/
theorem c4_both_absent_is_error :
    get_named_dests c4Doc = .error (.error "missing key") := rfl

theorem dGet_mapRefsEntries (f : OId → OId) (d : Dict) (k : String) :
    dGet (mapRefsEntries f d) k = (dGet d k).map (mapRefs f) := by
  induction d with
  | nil => rfl
  | cons kv t ih =>
    by_cases h : k = kv.1 <;> simp [mapRefsEntries, dGet, h, ih]

theorem idxOfKey_of_btGet (l : List (OId × Obj)) (cid : OId) (v : Obj)
    (h : btGet l cid = some v) :
    ∃ i, idxOfKey (l.map Prod.fst) cid = some i := by
  induction l with
  | nil => simp [btGet] at h
  | cons kv t ih =>
    by_cases hk : cid = kv.1
    · exact ⟨0, by simp [idxOfKey, hk]⟩
    · rw [btGet, if_neg hk] at h
      obtain ⟨i, hi⟩ := ih h
      refine ⟨i + 1, ?_⟩
      simp only [List.map_cons, idxOfKey]
      rw [if_neg (fun hh => hk hh.symm), hi]
      rfl

theorem btGet_renumAux (l : List (OId × Obj)) (f : OId → OId) (s : Nat)
    (i : Nat) (cid : OId) (v : Obj) (hget : btGet l cid = some v)
    (hidx : idxOfKey (l.map Prod.fst) cid = some i) :
    btGet (renumAux f s l) (s + i, cid.2) = some (mapRefs f v) := by
  induction l generalizing s i with
  | nil => simp [btGet] at hget
  | cons kv t ih =>
    by_cases hk : cid = kv.1
    · subst hk
      rw [btGet, if_pos rfl, Option.some.injEq] at hget
      subst hget
      simp [idxOfKey] at hidx
      subst hidx
      rw [renumAux, btGet]
      simp
    · rw [btGet, if_neg hk] at hget
      simp only [List.map_cons, idxOfKey] at hidx
      rw [if_neg (fun hh => hk hh.symm)] at hidx
      cases hj : idxOfKey (t.map Prod.fst) cid with
      | none => rw [hj] at hidx; exact Option.noConfusion hidx
      | some j =>
        rw [hj] at hidx
        simp at hidx
        subst hidx
        rw [renumAux, btGet]
        rw [if_neg (by
          intro hh
          have : s + (j + 1) = s := congrArg Prod.fst hh
          omega)]
        have := ih (s + 1) j hget hj
        rw [show s + 1 + j = s + (j + 1) by omega] at this
        exact this

theorem btGet_renumber_objects_with (doc : Document) (s : Nat) (cid : OId)
    (v : Obj) (hget : btGet doc.objects cid = some v) :
    btGet (renumber_objects_with s doc).objects
        (replMap (doc.objects.map Prod.fst) s cid) =
      some (mapRefs (replMap (doc.objects.map Prod.fst) s) v) := by
  obtain ⟨i, hi⟩ := idxOfKey_of_btGet _ _ _ hget
  unfold renumber_objects_with
  simp only
  rw [show replMap (doc.objects.map Prod.fst) s cid = (s + i, cid.2) by
    unfold replMap; rw [hi]]
  exact btGet_renumAux _ _ _ _ _ _ hget hi

theorem trailer_renumber_objects_with (doc : Document) (s : Nat) :
    (renumber_objects_with s doc).trailer =
      mapRefsEntries (replMap (doc.objects.map Prod.fst) s) doc.trailer :=
  rfl

/-- Reading a direct `Dests` dictionary out of the catalog succeeds with
exactly that dictionary. -/
theorem get_named_dests_direct (doc : Document) (cat : Dict) (d : Dict)
    (hc : catalog doc = .ok cat) (hd : dGet cat "Dests" = some (.dict d)) :
    get_named_dests doc = .ok d := by
  unfold get_named_dests
  rw [hc, res_bind_ok]
  have h1 : get_dict_in_dict doc cat "Dests" = .ok d := by
    unfold get_dict_in_dict
    rw [hd]
    simp [require, res_bind_ok, deref, deref.go, as_dict]
  rw [h1]

/-- With neither `Dests` nor `Names` present, the named-destinations read
propagates the lookup error instead of producing an empty table. -/
theorem get_named_dests_absent (doc : Document) (cat : Dict)
    (hc : catalog doc = .ok cat) (hd : dGet cat "Dests" = none)
    (hn : dGet cat "Names" = none) :
    get_named_dests doc = .error (.error "missing key") := by
  unfold get_named_dests
  rw [hc, res_bind_ok]
  have h1 : get_dict_in_dict doc cat "Dests" =
      .error (.error "missing key") := by
    unfold get_dict_in_dict
    rw [hd]
    rfl
  have h2 : get_dict_in_dict doc cat "Names" =
      .error (.error "missing key") := by
    unfold get_dict_in_dict
    rw [hn]
    rfl
  rw [h1, h2]

/-- Structure of a successfully assembled document: the object table ends
with the rebuilt `Pages` root (full `Kids` list, `Count` = number of
collected pages) and, inserted after it, the rebuilt `Catalog` (with
`Pages`, optionally `Outlines`, and the merged `Dests` dictionary), and the
trailer's `Root` points at the catalog id. -/
theorem buildCore_shape (parts : PdfParts) (doc0 : Document) (st : ScanState)
    (cid : OId) (cd : Dict) (pid2 : OId) (pd : Dict)
    (hbuild : buildCore parts = .ok doc0)
    (hscan : scanObjects parts = .ok st)
    (hcat : st.catalog_object = some (cid, .dict cd))
    (hpo : st.pages_object = some (pid2, .dict pd)) :
    ∃ (destinations mid : Dict) (base : Document),
      doc0.objects =
        btInsert cid (.dict (dSet "Dests" (.dict destinations) mid))
          (btInsert pid2
            (.dict (dSet "Kids"
                (.array (parts.pages.map (fun kv => Obj.ref kv.1)))
              (dSet "Count" (.integer parts.pages.length) pd)))
            base.objects) ∧
      dGet doc0.trailer "Root" = some (.ref cid) ∧
      dGet mid "Pages" = some (.ref pid2) := by
  unfold buildCore at hbuild
  rw [hscan, res_bind_ok] at hbuild
  obtain ⟨⟨destinations, document1⟩, hcd, hbuild⟩ := res_bind_eq_ok hbuild
  rw [hpo] at hbuild
  simp only [Option.isNone_some, Bool.false_eq_true, if_false, res_pure,
    res_bind_ok] at hbuild
  obtain ⟨⟨outlines_id, document2⟩, hmo, hbuild⟩ := res_bind_eq_ok hbuild
  rw [hcat] at hbuild
  simp only [as_dict, res_pure] at hbuild
  rw [Except.ok.injEq] at hbuild
  subst hbuild
  cases outlines_id with
  | none =>
    exact ⟨destinations, dSet "Pages" (.ref pid2) cd, document2, rfl,
      dGet_dSet_same _ _ _, dGet_dSet_same _ _ _⟩
  | some oid =>
    refine ⟨destinations,
      dSet "Outlines" (.ref oid) (dSet "Pages" (.ref pid2) cd), document2,
      rfl, dGet_dSet_same _ _ _, ?_⟩
    rw [dGet_dSet_ne _ _ _ _ (by decide)]
    exact dGet_dSet_same _ _ _

/-- C4 (amended): `get_named_dests` reads the catalog's direct `Dests`
dictionary when present; when both `Dests` and `Names` are absent it
propagates the lookup error instead of yielding an empty table; but every
document assembled by the merge carries a (possibly empty) direct `Dests`
dictionary in its catalog, so on merged documents the named-destinations
read always succeeds and anchor lookups merely miss and are reported. -/
theorem c4_named_dests_behavior :
    (∀ (doc : Document) (cat d : Dict),
        catalog doc = .ok cat → dGet cat "Dests" = some (.dict d) →
        get_named_dests doc = .ok d) ∧
    (∀ (doc : Document) (cat : Dict),
        catalog doc = .ok cat → dGet cat "Dests" = none →
        dGet cat "Names" = none →
        get_named_dests doc = .error (.error "missing key")) ∧
    (∀ (parts : PdfParts) (doc0 docF : Document) (st : ScanState)
        (cid : OId) (cd : Dict) (pid2 : OId) (pd : Dict),
        buildCore parts = .ok doc0 →
        scanObjects parts = .ok st →
        st.catalog_object = some (cid, .dict cd) →
        st.pages_object = some (pid2, .dict pd) →
        build_pdf_from_objects parts = .ok docF →
        ∃ dests : Dict, get_named_dests docF = .ok dests) := by
  refine ⟨get_named_dests_direct, get_named_dests_absent, ?_⟩
  intro parts doc0 docF st cid cd pid2 pd hbuild hscan hcat hpo hbuildF
  obtain ⟨destinations, mid, base, hobj, hroot, hmidp⟩ :=
    buildCore_shape parts doc0 st cid cd pid2 pd hbuild hscan hcat hpo
  have hdocF : docF = renumber_objects_with 1 doc0 := by
    unfold build_pdf_from_objects at hbuildF
    rw [hbuild, res_bind_ok, res_pure, Except.ok.injEq] at hbuildF
    exact hbuildF.symm
  subst hdocF
  set f := replMap (doc0.objects.map Prod.fst) 1 with hf
  have hcatget : btGet doc0.objects cid =
      some (.dict (dSet "Dests" (.dict destinations) mid)) := by
    rw [hobj]
    exact btGet_btInsert_same _ _ _
  have hren := btGet_renumber_objects_with doc0 1 cid _ hcatget
  rw [← hf] at hren
  have hcatF : catalog (renumber_objects_with 1 doc0) =
      .ok (mapRefsEntries f (dSet "Dests" (.dict destinations) mid)) := by
    unfold catalog
    have htr : (renumber_objects_with 1 doc0).trailer =
        mapRefsEntries f doc0.trailer := rfl
    rw [htr, dGet_mapRefsEntries, hroot]
    have hm : Option.map (mapRefs f) (some (Obj.ref cid)) =
        some (.ref (f cid)) := rfl
    rw [hm, require_some, res_bind_ok, as_reference_ref, res_bind_ok]
    unfold get_dictionary get_object
    rw [hren, mapRefs_dict, require_some, res_bind_ok, as_dict_dict]
  refine ⟨mapRefsEntries f destinations, ?_⟩
  refine get_named_dests_direct _ _ _ hcatF ?_
  rw [dGet_mapRefsEntries, dGet_dSet_same]
  rfl

/-- Witness for `c4_named_dests_behavior`: the direct read returns the
table, the both-absent read errors, and a freshly merged document's
named-destinations read succeeds. -/
theorem c4_named_dests_behavior_witness :
    get_named_dests c4wDirectDoc = .ok [("a", .null)] ∧
    get_named_dests c4Doc = .error (.error "missing key") ∧
    ∃ dests : Dict,
      get_named_dests (compress (adjust_zero_pages
        (renumber_objects
          { objects := btInsert (3, 0)
              (.dict (dSet "Dests" (.dict [])
                (dSet "Pages" (.ref (1, 0))
                  [("Type", .name "Catalog"), ("Pages", .ref (1, 0))])))
              (btInsert (1, 0)
                (.dict (dSet "Kids"
                    (.array (c4wParts.pages.map (fun kv => Obj.ref kv.1)))
                  (dSet "Count" (.integer c4wParts.pages.length)
                    [("Type", .name "Pages"), ("Kids", .array [.ref (2, 0)]),
                     ("Count", .integer 1)])))
                [((2, 0), .dict [("Type", .name "Page"),
                   ("Parent", .ref (1, 0))])])
            trailer := [("Root", .ref (3, 0))]
            max_id := 3 }))) = .ok dests :=
  ⟨c4_named_dests_behavior.1 c4wDirectDoc _ _ rfl rfl,
   c4_named_dests_behavior.2.1 c4Doc _ rfl rfl rfl,
   c4_named_dests_behavior.2.2 c4wParts _ _ _ (3, 0) _ (1, 0) _ rfl rfl rfl
     rfl rfl⟩

theorem merge_outlines_nil (d : Document) :
    merge_outlines d [] = .ok (none, d) := rfl

/-- C7 (amended): the listed fatal conditions do abort the merge — a source
that fails to load propagates its error before anything is merged; a scan
finding no `Pages` object aborts with `No Pages found.`; a scan finding no
`Catalog` aborts with `Catalog root not found.`; an outline root without
`Last` (or, for a later source, without `First`) aborts the outline splice —
while a Link annotation whose resolution merely misses the destination or
url tables never aborts: the per-annotation classification succeeds whether
or not the lookup hits, only recording a problem entry. The listed causes
are not exhaustive, though: other malformed link structures (e.g. an `A`
action dictionary with no `URI`) also abort. -/
theorem c7_abort_conditions :
    (∀ (conf : Config) (u : String) (e : Fail)
        (rest : List (String × Res Document)),
        merge_pdfs conf ((u, .error e) :: rest) = .error e) ∧
    (∀ (parts : PdfParts) (st : ScanState) (cdres : Dict × Document),
        scanObjects parts = .ok st → st.pages_object = none →
        collectDests st.document st.destination_ids = .ok cdres →
        buildCore parts = .error (.error "No Pages found.")) ∧
    (∀ (parts : PdfParts) (st : ScanState) (cdres : Dict × Document)
        (po : OId × Obj),
        scanObjects parts = .ok st → st.pages_object = some po →
        st.catalog_object = none → st.outlines = [] →
        collectDests st.document st.destination_ids = .ok cdres →
        buildCore parts = .error (.error "Catalog root not found.")) ∧
    (∀ (doc : Document) (oid : OId) (od : Dict) (rest : List (OId × Dict))
        (c : Int),
        dGet od "Count" = some (.integer c) → dGet od "Last" = none →
        merge_outlines doc ((oid, od) :: rest) =
          .error (.error "missing Last")) ∧
    (∀ (doc : Document) (o1 o2 : OId) (d1 d2 : Dict) (c1 c2 : Int)
        (l1 : OId) (ld : Dict),
        dGet d1 "Count" = some (.integer c1) →
        dGet d1 "Last" = some (.ref l1) →
        dGet d2 "Count" = some (.integer c2) →
        dGet d2 "First" = none →
        get_object doc l1 = .ok (.dict ld) →
        merge_outlines doc [(o1, d1), (o2, d2)] =
          .error (.error "missing First")) ∧
    (∀ (conf : Config) (doc : Document) (dests : Dict)
        (u2pid : List (String × OId)) (pn : Nat) (st : RwState)
        (aid : OId) (ad ahref : Dict) (url page anchor : String),
        (get_deref ad "Subtype" doc >>= as_name) = .ok "Link" →
        (get_deref ad "A" doc >>= as_dict) = .ok ahref →
        dGet ahref "URI" = some (.string url) →
        strStartsWith url conf.url = true →
        (splitOnChar '/' url).getLast? = some page →
        charContains page '#' = true →
        (splitOnChar '#' page).getLast? = some anchor →
        (classifyAnnot conf doc dests u2pid pn st (aid, ad)).isOk = true) ∧
    (∀ (conf : Config) (doc : Document) (dests : Dict)
        (u2pid : List (String × OId)) (pn : Nat) (st : RwState)
        (aid : OId) (ad ahref : Dict) (url page : String),
        (get_deref ad "Subtype" doc >>= as_name) = .ok "Link" →
        (get_deref ad "A" doc >>= as_dict) = .ok ahref →
        dGet ahref "URI" = some (.string url) →
        strStartsWith url conf.url = true →
        (splitOnChar '/' url).getLast? = some page →
        charContains page '#' = false →
        (classifyAnnot conf doc dests u2pid pn st (aid, ad)).isOk = true) := by
  refine ⟨?_, ?_, ?_, ?_, ?_, ?_, ?_⟩
  · intro conf u e rest
    unfold merge_pdfs
    simp [List.mapM, List.mapM.loop, res_bind_err]
  · intro parts st cdres hscan hpo hcd
    unfold buildCore
    rw [hscan, res_bind_ok, hcd, res_bind_ok, hpo]
    rfl
  · intro parts st cdres po hscan hpo hcat houtl hcd
    unfold buildCore
    rw [hscan, res_bind_ok, hcd, res_bind_ok, hpo, houtl]
    simp only [Option.isNone_some, Bool.false_eq_true, if_false, res_pure,
      res_bind_ok, merge_outlines_nil]
    rw [hcat]
  · intro doc oid od rest c hcount hlast
    unfold merge_outlines
    rw [if_neg (by simp)]
    have hstep : outlineStep (0, none, doc) (oid, od) =
        .error (.error "missing Last") := by
      simp only [outlineStep]
      rw [hcount, require_some, res_bind_ok]
      simp only [as_i64, res_bind_ok, hlast, require_none, res_bind_err]
    simp only [List.foldlM, hstep, res_bind_err]
  · intro doc o1 o2 d1 d2 c1 c2 l1 ld h1c h1l h2c h2f hget
    unfold merge_outlines
    rw [if_neg (by simp)]
    have hstep1 : outlineStep (0, none, doc) (o1, d1) =
        .ok (c1, some (o1, d1, l1), doc) := by
      simp only [outlineStep]
      rw [h1c, require_some, res_bind_ok]
      simp only [as_i64, res_bind_ok, h1l, require_some, as_reference_ref,
        res_pure, zero_add]
    have hstep2 : outlineStep (c1, some (o1, d1, l1), doc) (o2, d2) =
        .error (.error "missing First") := by
      simp only [outlineStep]
      rw [h2c, require_some, res_bind_ok]
      simp only [as_i64, res_bind_ok, hget, as_dict_dict, h2f,
        require_none, res_bind_err]
    simp only [List.foldlM, hstep1, res_bind_ok, hstep2, res_bind_err]
  · intro conf doc dests u2pid pn st aid ad ahref url page anchor hsub hA
      hURI hstart hlast hfrag hanch
    unfold classifyAnnot
    cases hdd : dGet dests anchor with
    | none =>
      simp [hsub, hA, hURI, hstart, hlast, hfrag, hanch, hdd,
        require_some, res_bind_ok, res_pure, as_string]
    | some dest =>
      simp [hsub, hA, hURI, hstart, hlast, hfrag, hanch, hdd,
        require_some, res_bind_ok, res_pure, as_string]
  · intro conf doc dests u2pid pn st aid ad ahref url page hsub hA hURI
      hstart hlast hfrag
    unfold classifyAnnot
    by_cases hie : strIsEmpty page
    · cases hg : strGet u2pid (url ++ "index.html") with
      | none =>
        simp [hsub, hA, hURI, hstart, hlast, hfrag, hie, hg,
          require_some, res_bind_ok, res_pure, as_string]
      | some pid =>
        simp [hsub, hA, hURI, hstart, hlast, hfrag, hie, hg,
          require_some, res_bind_ok, res_pure, as_string]
    · cases hg : strGet u2pid url with
      | none =>
        simp [hsub, hA, hURI, hstart, hlast, hfrag, hie, hg,
          require_some, res_bind_ok, res_pure, as_string]
      | some pid =>
        simp [hsub, hA, hURI, hstart, hlast, hfrag, hie, hg,
          require_some, res_bind_ok, res_pure, as_string]

/-- Witness for `c7_abort_conditions` at concrete inputs: each listed fatal
cause aborts, and both unresolved-link classifications (anchor miss, url
miss — the destination table and url map are empty) succeed without
aborting. -/
theorem c7_abort_conditions_witness :
    merge_pdfs testConf [("u", .error (.error "parse"))] =
      .error (.error "parse") ∧
    buildCore c7wNoPages = .error (.error "No Pages found.") ∧
    buildCore c7wNoCatalog = .error (.error "Catalog root not found.") ∧
    merge_outlines Document.withVersion
      [((5, 0), [("Count", .integer 1)])] = .error (.error "missing Last") ∧
    merge_outlines c7wD2
      [((5, 0), [("Count", .integer 1), ("Last", .ref (7, 0))]),
       ((6, 0), [("Count", .integer 2)])] =
      .error (.error "missing First") ∧
    (classifyAnnot shortConf c7wDoc [] [] 0 ⟨[], [], [], []⟩
      ((9, 0), c7wAnnot)).isOk = true ∧
    (classifyAnnot shortConf c7wDoc [] [] 0 ⟨[], [], [], []⟩
      ((9, 0), c7wAnnot2)).isOk = true :=
  ⟨c7_abort_conditions.1 testConf "u" (.error "parse") [],
   c7_abort_conditions.2.1 c7wNoPages _ _ rfl rfl rfl,
   c7_abort_conditions.2.2.1 c7wNoCatalog _ _
     ((1, 0), .dict [("Type", .name "Pages"), ("Kids", .array []),
       ("Count", .integer 0)]) rfl rfl rfl rfl rfl,
   c7_abort_conditions.2.2.2.1 Document.withVersion (5, 0) _ [] 1 rfl rfl,
   c7_abort_conditions.2.2.2.2.1 c7wD2 (5, 0) (6, 0) _ _ 1 2 (7, 0)
     [("Title", .string "T")] rfl rfl rfl rfl rfl,
   c7_abort_conditions.2.2.2.2.2.1 shortConf c7wDoc [] [] 0 ⟨[], [], [], []⟩
     (9, 0) c7wAnnot [("S", .name "URI"), ("URI", .string "b/x.h#z")]
     "b/x.h#z" "x.h#z" "z" rfl rfl rfl rfl rfl rfl rfl,
   c7_abort_conditions.2.2.2.2.2.2 shortConf c7wDoc [] [] 0 ⟨[], [], [], []⟩
     (9, 0) c7wAnnot2 [("S", .name "URI"), ("URI", .string "b/y.h")]
     "b/y.h" "y.h" rfl rfl rfl rfl rfl rfl⟩

theorem findFreeFontAux_eq (fonts : Dict) (n : Nat) :
    ∀ (fuel k : Nat), k ≤ n → n ≤ k + fuel →
    (∀ j, k ≤ j → j < n → dHas fonts ("F" ++ toString j) = true) →
    dHas fonts ("F" ++ toString n) = false →
    findFreeFontAux fonts fuel k = n := by
  intro fuel
  induction fuel with
  | zero =>
    intro k hk hn hlow hfree
    have hkn : k = n := by omega
    subst hkn
    rfl
  | succ f ih =>
    intro k hk hn hlow hfree
    by_cases hkn : k = n
    · subst hkn
      unfold findFreeFontAux
      rw [hfree]
      simp
    · have hklt : k < n := lt_of_le_of_ne hk hkn
      have hhk : dHas fonts ("F" ++ toString k) = true := hlow k le_rfl hklt
      unfold findFreeFontAux
      rw [hhk]
      simp only [if_true]
      exact ih (k + 1) (by omega) (by omega)
        (fun j hj hjn => hlow j (by omega) hjn) hfree

/-- The probe of `findFreeFont` lands exactly on the lowest unused slot. -/
theorem findFreeFont_eq (fd : Dict) (n : Nat) (hn1 : 1 ≤ n)
    (hlow : ∀ j, 1 ≤ j → j < n → dHas fd ("F" ++ toString j) = true)
    (hfree : dHas fd ("F" ++ toString n) = false)
    (hbound : n ≤ fd.length + 2) :
    findFreeFont fd = n :=
  findFreeFontAux_eq fd n (fd.length + 1) 1 hn1 (by omega) hlow hfree

/-- C9: with no numbering style configured the pass changes nothing; with a
style, one shared font object is registered and every page (in ascending
1-based page order) is processed by `numberPage`, which binds the shared
font at the page's lowest unused local `F{n}` slot inside the page's own
`Resources`/`Font` dictionaries and appends — after the existing content —
exactly the one text block of `pageNumberOps`: fill colour, `F{n}` at the
configured size, the vertically flipping text matrix `[1 0 0 -1]`
translated by `(x·300, y·300)`, and the literal string `Page {N}` with `N`
the page's 1-based ordinal. -/
theorem c9_page_numbering (doc : Document) (conf : Config) :
    (conf.page_number = none → add_page_numbers doc conf = .ok doc) ∧
    (∀ style : PageNumber, conf.page_number = some style →
      add_page_numbers doc conf =
        (get_pages (add_object doc (.dict [("Type", .name "Font"),
            ("Subtype", .name "Type1"),
            ("BaseFont", .name style.font)])).2).foldlM
          (numberPage style (add_object doc (.dict [("Type", .name "Font"),
            ("Subtype", .name "Type1"),
            ("BaseFont", .name style.font)])).1)
          (add_object doc (.dict [("Type", .name "Font"),
            ("Subtype", .name "Type1"),
            ("BaseFont", .name style.font)])).2) ∧
    (∀ (style : PageNumber) (font_id : OId) (pageNum : Nat) (pid : OId)
        (page rd fd : Dict) (n : Nat) (cref : OId) (sd : Dict)
        (ops : List (String × List Obj)),
        get_dictionary doc pid = .ok page →
        dGet page "Resources" = some (.dict rd) →
        dGet rd "Font" = some (.dict fd) →
        1 ≤ n →
        (∀ j, 1 ≤ j → j < n → dHas fd ("F" ++ toString j) = true) →
        dHas fd ("F" ++ toString n) = false →
        n ≤ fd.length + 2 →
        dGet page "Contents" = some (.ref cref) →
        cref ≠ pid →
        btGet doc.objects cref = some (.stream sd ops) →
        numberPage style font_id doc (pageNum, pid) =
          .ok (setObj (setObj doc pid (.dict (dSet "Resources"
              (.dict (dSet "Font" (.dict (dSet ("F" ++ toString n)
                (.ref font_id) fd)) rd)) page)))
            cref (.stream sd (ops ++ pageNumberOps style n pageNum)))) := by
  refine ⟨?_, ?_, ?_⟩
  · intro h
    unfold add_page_numbers
    rw [h]
  · intro style h
    unfold add_page_numbers
    rw [h]
  · intro style font_id pageNum pid page rd fd n cref sd ops hpage hres
      hfont hn1 hlow hfree hbound hcont hne hstream
    have hff : findFreeFont fd = n := findFreeFont_eq fd n hn1 hlow hfree
      hbound
    have hbf : bindFont doc pid font_id =
        .ok (n, setObj doc pid (.dict (dSet "Resources"
          (.dict (dSet "Font" (.dict (dSet ("F" ++ toString n)
            (.ref font_id) fd)) rd)) page))) := by
      unfold bindFont
      simp only [hpage, hres, hfont, hff]
    unfold numberPage
    rw [hbf, res_bind_ok]
    unfold add_to_page_content
    have hpage' : get_dictionary (setObj doc pid (.dict (dSet "Resources"
        (.dict (dSet "Font" (.dict (dSet ("F" ++ toString n)
          (.ref font_id) fd)) rd)) page))) pid =
        .ok (dSet "Resources" (.dict (dSet "Font"
          (.dict (dSet ("F" ++ toString n) (.ref font_id) fd)) rd)) page) := by
      unfold get_dictionary get_object setObj
      rw [btGet_btInsert_same, require_some, res_bind_ok, as_dict_dict]
    have hc' : btGet (setObj doc pid (.dict (dSet "Resources"
        (.dict (dSet "Font" (.dict (dSet ("F" ++ toString n)
          (.ref font_id) fd)) rd)) page))).objects cref =
        some (.stream sd ops) := by
      unfold setObj
      rw [btGet_btInsert_ne _ _ _ _ hne, hstream]
    simp only [hpage', res_bind_ok]
    rw [dGet_dSet_ne _ _ _ _ (by decide)]
    simp only [hcont, require_some, res_bind_ok, as_reference_ref, hc',
      res_pure]

/-- Witness for `c9_page_numbering`: the numbering pass is a no-op without a
style, and with a style the page whose `F1` is taken gets the shared font
bound at `F2` and the `Page 4` text block appended after its existing
content. -/
theorem c9_page_numbering_witness :
    add_page_numbers c9wDoc shortConf = .ok c9wDoc ∧
    numberPage c9wStyle (9, 0) c9wDoc (4, (2, 0)) =
      .ok (setObj (setObj c9wDoc (2, 0) (.dict (dSet "Resources"
          (.dict (dSet "Font" (.dict (dSet ("F" ++ toString 2)
            (.ref (9, 0)) [("F1", .ref (5, 0))]))
            [("Font", .dict [("F1", .ref (5, 0))])])) c9wPage)))
        (3, 0) (.stream []
          ([("BT", []), ("ET", [])] ++ pageNumberOps c9wStyle 2 4))) :=
  ⟨(c9_page_numbering c9wDoc shortConf).1 rfl,
   (c9_page_numbering c9wDoc shortConf).2.2 c9wStyle (9, 0) 4 (2, 0)
     c9wPage [("Font", .dict [("F1", .ref (5, 0))])] [("F1", .ref (5, 0))]
     2 (3, 0) [] [("BT", []), ("ET", [])] rfl rfl rfl (by decide)
     (by
       intro j h1 h2
       have hj : j = 1 := by omega
       subst hj
       decide)
     (by decide) (by decide) rfl (by decide) rfl⟩

theorem btGet_mem (m : List (OId × Obj)) (k : OId) (v : Obj)
    (h : btGet m k = some v) : (k, v) ∈ m := by
  induction m with
  | nil => simp [btGet] at h
  | cons kv t ih =>
    by_cases hk : k = kv.1
    · rw [btGet, if_pos hk, Option.some.injEq] at h
      subst hk
      subst h
      exact List.mem_cons_self _ _
    · rw [btGet, if_neg hk] at h
      exact List.mem_cons_of_mem _ (ih h)

theorem btGet_isSome_of_mem (m : List (OId × Obj)) (k : OId)
    (h : k ∈ m.map Prod.fst) : (btGet m k).isSome = true := by
  induction m with
  | nil => simp at h
  | cons kv t ih =>
    by_cases hk : k = kv.1
    · simp [btGet, hk]
    · simp only [List.map_cons, List.mem_cons] at h
      rcases h with h | h
      · exact absurd h hk
      · simp [btGet, hk, ih h]

theorem mem_of_btGet_isSome (m : List (OId × Obj)) (k : OId)
    (h : (btGet m k).isSome = true) : k ∈ m.map Prod.fst := by
  induction m with
  | nil => simp [btGet] at h
  | cons kv t ih =>
    by_cases hk : k = kv.1
    · simp [hk]
    · rw [btGet, if_neg hk] at h
      simp [List.map_cons, ih h]

theorem refsIn_dGet (d : Dict) (k : String) (v : Obj)
    (h : dGet d k = some v) : ∀ r ∈ refsIn v, r ∈ refsInEntries d := by
  induction d with
  | nil => simp [dGet] at h
  | cons kv t ih =>
    by_cases hk : k = kv.1
    · rw [dGet, if_pos hk, Option.some.injEq] at h
      subst h
      intro r hr
      exact List.mem_append_left _ hr
    · rw [dGet, if_neg hk] at h
      intro r hr
      exact List.mem_append_right _ (ih h r hr)

theorem refsIn_arrayElem (xs : List Obj) (x : Obj) (h : x ∈ xs) :
    ∀ r ∈ refsIn x, r ∈ refsInList xs := by
  induction xs with
  | nil => simp at h
  | cons y t ih =>
    rcases List.mem_cons.mp h with h | h
    · subst h
      intro r hr
      exact List.mem_append_left _ hr
    · intro r hr
      exact List.mem_append_right _ (ih h r hr)

theorem renumAux_length (f : OId → OId) (n : Nat) (l : List (OId × Obj)) :
    (renumAux f n l).length = l.length := by
  induction l generalizing n with
  | nil => rfl
  | cons kv t ih => simp [renumAux, ih]

theorem renumAux_keys (f : OId → OId) (s : Nat) (l : List (OId × Obj)) :
    ∀ k ∈ (renumAux f s l).map Prod.fst, s ≤ k.1 ∧ k.1 < s + l.length := by
  induction l generalizing s with
  | nil => simp [renumAux]
  | cons kv t ih =>
    intro k hk
    simp only [renumAux, List.map_cons, List.mem_cons] at hk
    rcases hk with hk | hk
    · subst hk
      simp only [List.length_cons]
      omega
    · have := ih (s + 1) k hk
      simp only [List.length_cons]
      omega

theorem idxOfKey_get (olds : List OId) (k : OId) (i : Nat)
    (h : idxOfKey olds k = some i) : olds.get? i = some k := by
  induction olds generalizing i with
  | nil => simp [idxOfKey] at h
  | cons o t ih =>
    by_cases ho : o = k
    · rw [idxOfKey, if_pos ho, Option.some.injEq] at h
      subst h
      simp [ho]
    · rw [idxOfKey, if_neg ho] at h
      cases hj : idxOfKey t k with
      | none => rw [hj] at h; exact Option.noConfusion h
      | some j =>
        rw [hj] at h
        simp at h
        subst h
        simpa using ih j hj

theorem idxOfKey_mem (olds : List OId) (k : OId) (h : k ∈ olds) :
    ∃ i, idxOfKey olds k = some i := by
  induction olds with
  | nil => simp at h
  | cons o t ih =>
    by_cases ho : o = k
    · exact ⟨0, by simp [idxOfKey, ho]⟩
    · rcases List.mem_cons.mp h with h' | h'
      · exact absurd h'.symm ho
      · obtain ⟨i, hi⟩ := ih h'
        exact ⟨i + 1, by simp [idxOfKey, ho, hi]⟩

theorem replMap_inj_on (olds : List OId) (s : Nat) (k1 k2 : OId)
    (h1 : k1 ∈ olds) (h2 : k2 ∈ olds)
    (heq : replMap olds s k1 = replMap olds s k2) : k1 = k2 := by
  obtain ⟨i1, hi1⟩ := idxOfKey_mem olds k1 h1
  obtain ⟨i2, hi2⟩ := idxOfKey_mem olds k2 h2
  unfold replMap at heq
  rw [hi1, hi2] at heq
  have hii : i1 = i2 := by
    have := congrArg Prod.fst heq
    simpa using this
  subst hii
  have g1 := idxOfKey_get olds k1 i1 hi1
  have g2 := idxOfKey_get olds k2 i1 hi2
  rw [g1] at g2
  exact Option.some.inj g2

theorem getNodeDict_isSome (doc : Document) (id : OId) (nd : Dict)
    (h : getNodeDict doc id = some nd) :
    (btGet doc.objects id).isSome = true := by
  unfold getNodeDict at h
  cases hb : btGet doc.objects id with
  | none => rw [hb] at h; exact Option.noConfusion h
  | some o => simp

theorem pageIterAux_mem (doc : Document) :
    ∀ (fuel : Nat) (id : OId), ∀ x ∈ pageIterAux doc fuel id,
      (btGet doc.objects x).isSome = true := by
  intro fuel
  induction fuel with
  | zero => intro id x hx; simp [pageIterAux] at hx
  | succ f ih =>
    intro id x hx
    unfold pageIterAux at hx
    cases hnd : getNodeDict doc id with
    | none => rw [hnd] at hx; simp at hx
    | some nd =>
      rw [hnd] at hx
      dsimp only at hx
      by_cases hpage : type_name (.dict nd) = some "Page"
      · rw [if_pos hpage] at hx
        simp only [List.mem_singleton] at hx
        subst hx
        exact getNodeDict_isSome doc x nd hnd
      · rw [if_neg hpage] at hx
        by_cases hpages : type_name (.dict nd) = some "Pages"
        · rw [if_pos hpages] at hx
          cases hkids : dGet nd "Kids" with
          | none => rw [hkids] at hx; simp at hx
          | some ko =>
            rw [hkids] at hx
            cases ko with
            | array kids =>
              rw [List.mem_flatMap] at hx
              obtain ⟨kid, hkid, hx⟩ := hx
              cases kid with
              | ref kidid => exact ih kidid x hx
              | null => simp at hx
              | boolean b => simp at hx
              | integer i => simp at hx
              | real r => simp at hx
              | string s => simp at hx
              | name n => simp at hx
              | array xs => simp at hx
              | dict dd => simp at hx
              | stream dd ops => simp at hx
            | null => simp at hx
            | boolean b => simp at hx
            | integer i => simp at hx
            | real r => simp at hx
            | string s => simp at hx
            | name n => simp at hx
            | ref rr => simp at hx
            | dict dd => simp at hx
            | stream dd ops => simp at hx
        · rw [if_neg hpages] at hx
          simp at hx

theorem type_name_mapRefsEntries (f : OId → OId) (nd : Dict) :
    type_name (.dict (mapRefsEntries f nd)) = type_name (.dict nd) := by
  unfold type_name
  dsimp only
  rw [dGet_mapRefsEntries]
  cases ht : dGet nd "Type" with
  | none => rfl
  | some tv =>
    cases tv with
    | name n => rfl
    | null => rfl
    | boolean b => rfl
    | integer i => rfl
    | real r => rfl
    | string s => rfl
    | ref i => rfl
    | array xs => rfl
    | dict dd => rfl
    | stream dd ops => rfl

theorem pageIterAux_renumber (doc : Document) (s : Nat)
    (hclosed : RefsClosed doc) :
    ∀ (fuel : Nat) (id : OId), (btGet doc.objects id).isSome = true →
    pageIterAux (renumber_objects_with s doc) fuel
        (replMap (doc.objects.map Prod.fst) s id) =
      (pageIterAux doc fuel id).map
        (replMap (doc.objects.map Prod.fst) s) := by
  intro fuel
  induction fuel with
  | zero => intro id _; rfl
  | succ f ih =>
    intro id hid
    obtain ⟨v, hv⟩ : ∃ v, btGet doc.objects id = some v := by
      cases hb : btGet doc.objects id with
      | none => rw [hb] at hid; simp at hid
      | some v => exact ⟨v, rfl⟩
    have hrv := btGet_renumber_objects_with doc s id v hv
    cases v with
    | dict nd =>
      have h1 : getNodeDict doc id = some nd := by
        unfold getNodeDict
        rw [hv]
      have h2 : getNodeDict (renumber_objects_with s doc)
          (replMap (doc.objects.map Prod.fst) s id) =
          some (mapRefsEntries (replMap (doc.objects.map Prod.fst) s) nd) := by
        unfold getNodeDict
        rw [hrv, mapRefs_dict]
      unfold pageIterAux
      rw [h1, h2]
      dsimp only
      rw [type_name_mapRefsEntries]
      by_cases hpage : type_name (.dict nd) = some "Page"
      · rw [if_pos hpage, if_pos hpage]
        rfl
      · rw [if_neg hpage, if_neg hpage]
        by_cases hpages : type_name (.dict nd) = some "Pages"
        · rw [if_pos hpages, if_pos hpages]
          have hk := dGet_mapRefsEntries
            (replMap (doc.objects.map Prod.fst) s) nd "Kids"
          cases hkids : dGet nd "Kids" with
          | none =>
            rw [hkids] at hk
            rw [hk]
            rfl
          | some ko =>
            rw [hkids] at hk
            rw [hk]
            cases ko with
            | array kids =>
              dsimp only [Option.map]
              rw [mapRefs_array]
              dsimp only
              have hmem : ∀ kid ∈ kids, ∀ r ∈ refsIn kid,
                  (btGet doc.objects r).isSome = true := by
                intro kid hkid r hr
                refine hclosed.1 (id, .dict nd) (btGet_mem _ _ _ hv) r ?_
                exact refsIn_dGet nd "Kids" _ hkids r
                  (refsIn_arrayElem kids kid hkid r hr)
              clear hk hkids
              induction kids with
              | nil => rfl
              | cons k t iht =>
                rw [mapRefsList]
                rw [List.flatMap_cons, List.flatMap_cons, List.map_append]
                have htail := iht (fun kid hkid => hmem kid
                  (List.mem_cons_of_mem _ hkid))
                rw [htail]
                congr 1
                cases k with
                | ref kidid =>
                  rw [mapRefs_ref]
                  exact ih kidid (hmem (.ref kidid)
                    (List.mem_cons_self _ _) kidid (by simp [refsIn]))
                | null => rfl
                | boolean b => rfl
                | integer i => rfl
                | real r => rfl
                | string str => rfl
                | name n => rfl
                | array xs => rfl
                | dict dd => rfl
                | stream dd ops => rfl
            | null => rfl
            | boolean b => rfl
            | integer i => rfl
            | real r => rfl
            | string str => rfl
            | name n => rfl
            | ref rr => rfl
            | dict dd => rfl
            | stream dd ops => rfl
        · rw [if_neg hpages, if_neg hpages]
          rfl
    | null =>
      have h1 : getNodeDict doc id = none := by
        unfold getNodeDict
        rw [hv]
      have h2 : getNodeDict (renumber_objects_with s doc)
          (replMap (doc.objects.map Prod.fst) s id) = none := by
        unfold getNodeDict
        rw [hrv]
        rfl
      unfold pageIterAux
      rw [h1, h2]
      rfl
    | array xs =>
      have h1 : getNodeDict doc id = none := by
        unfold getNodeDict; rw [hv]
      have h2 : getNodeDict (renumber_objects_with s doc)
          (replMap (doc.objects.map Prod.fst) s id) = none := by
        unfold getNodeDict; rw [hrv]; rfl
      unfold pageIterAux
      rw [h1, h2]
      rfl
    | boolean b =>
      have h1 : getNodeDict doc id = none := by
        unfold getNodeDict; rw [hv]
      have h2 : getNodeDict (renumber_objects_with s doc)
          (replMap (doc.objects.map Prod.fst) s id) = none := by
        unfold getNodeDict; rw [hrv]; rfl
      unfold pageIterAux
      rw [h1, h2]
      rfl
    | integer i =>
      have h1 : getNodeDict doc id = none := by
        unfold getNodeDict; rw [hv]
      have h2 : getNodeDict (renumber_objects_with s doc)
          (replMap (doc.objects.map Prod.fst) s id) = none := by
        unfold getNodeDict; rw [hrv]; rfl
      unfold pageIterAux
      rw [h1, h2]
      rfl
    | real r =>
      have h1 : getNodeDict doc id = none := by
        unfold getNodeDict; rw [hv]
      have h2 : getNodeDict (renumber_objects_with s doc)
          (replMap (doc.objects.map Prod.fst) s id) = none := by
        unfold getNodeDict; rw [hrv]; rfl
      unfold pageIterAux
      rw [h1, h2]
      rfl
    | string str =>
      have h1 : getNodeDict doc id = none := by
        unfold getNodeDict; rw [hv]
      have h2 : getNodeDict (renumber_objects_with s doc)
          (replMap (doc.objects.map Prod.fst) s id) = none := by
        unfold getNodeDict; rw [hrv]; rfl
      unfold pageIterAux
      rw [h1, h2]
      rfl
    | name n =>
      have h1 : getNodeDict doc id = none := by
        unfold getNodeDict; rw [hv]
      have h2 : getNodeDict (renumber_objects_with s doc)
          (replMap (doc.objects.map Prod.fst) s id) = none := by
        unfold getNodeDict; rw [hrv]; rfl
      unfold pageIterAux
      rw [h1, h2]
      rfl
    | ref rr =>
      have h1 : getNodeDict doc id = none := by
        unfold getNodeDict; rw [hv]
      have h2 : getNodeDict (renumber_objects_with s doc)
          (replMap (doc.objects.map Prod.fst) s id) = none := by
        unfold getNodeDict; rw [hrv]; rfl
      unfold pageIterAux
      rw [h1, h2]
      rfl
    | stream dd ops =>
      have h1 : getNodeDict doc id = none := by
        unfold getNodeDict; rw [hv]
      have h2 : getNodeDict (renumber_objects_with s doc)
          (replMap (doc.objects.map Prod.fst) s id) = none := by
        unfold getNodeDict; rw [hrv]; rfl
      unfold pageIterAux
      rw [h1, h2]
      rfl

theorem renumber_objects_with_length (doc : Document) (s : Nat) :
    (renumber_objects_with s doc).objects.length = doc.objects.length :=
  renumAux_length _ _ _

theorem mapRefsList_length (f : OId → OId) (xs : List Obj) :
    (mapRefsList f xs).length = xs.length := by
  induction xs with
  | nil => rfl
  | cons x t ih => rw [mapRefsList, List.length_cons, List.length_cons, ih]

theorem page_iter_mem (doc : Document) :
    ∀ x ∈ page_iter doc, (btGet doc.objects x).isSome = true := by
  intro x hx
  unfold page_iter at hx
  cases hroot : dGet doc.trailer "Root" with
  | none => rw [hroot] at hx; simp at hx
  | some v =>
    rw [hroot] at hx
    cases v with
    | ref rootId =>
      dsimp only at hx
      cases hcat : getNodeDict doc rootId with
      | none => rw [hcat] at hx; simp at hx
      | some cat =>
        rw [hcat] at hx
        dsimp only at hx
        cases hp : dGet cat "Pages" with
        | none => rw [hp] at hx; simp at hx
        | some pv =>
          rw [hp] at hx
          cases pv with
          | ref pagesId => exact pageIterAux_mem doc _ _ x hx
          | null => simp at hx
          | boolean b => simp at hx
          | integer i => simp at hx
          | real r => simp at hx
          | string s => simp at hx
          | name n => simp at hx
          | array xs => simp at hx
          | dict dd => simp at hx
          | stream dd ops => simp at hx
    | null => simp at hx
    | boolean b => simp at hx
    | integer i => simp at hx
    | real r => simp at hx
    | string s => simp at hx
    | name n => simp at hx
    | array xs => simp at hx
    | dict dd => simp at hx
    | stream dd ops => simp at hx

theorem page_iter_renumber (doc : Document) (s : Nat)
    (hclosed : RefsClosed doc) :
    page_iter (renumber_objects_with s doc) =
      (page_iter doc).map (replMap (doc.objects.map Prod.fst) s) := by
  unfold page_iter
  rw [trailer_renumber_objects_with, dGet_mapRefsEntries,
    renumber_objects_with_length]
  cases hroot : dGet doc.trailer "Root" with
  | none => rfl
  | some v =>
    cases v with
    | ref rootId =>
      dsimp only [Option.map]
      rw [mapRefs_ref]
      dsimp only
      have hrootSome : (btGet doc.objects rootId).isSome = true :=
        hclosed.2 rootId
          (refsIn_dGet doc.trailer "Root" _ hroot rootId (by simp [refsIn]))
      obtain ⟨w, hw⟩ : ∃ w, btGet doc.objects rootId = some w := by
        cases hb : btGet doc.objects rootId with
        | none => rw [hb] at hrootSome; simp at hrootSome
        | some w => exact ⟨w, rfl⟩
      have hrw := btGet_renumber_objects_with doc s rootId w hw
      cases w with
      | dict cat =>
        have h1 : getNodeDict doc rootId = some cat := by
          unfold getNodeDict; rw [hw]
        have h2 : getNodeDict (renumber_objects_with s doc)
            (replMap (doc.objects.map Prod.fst) s rootId) =
            some (mapRefsEntries (replMap (doc.objects.map Prod.fst) s)
              cat) := by
          unfold getNodeDict; rw [hrw, mapRefs_dict]
        rw [h1, h2]
        dsimp only
        rw [dGet_mapRefsEntries]
        cases hp : dGet cat "Pages" with
        | none => rfl
        | some pv =>
          cases pv with
          | ref pagesId =>
            dsimp only [Option.map]
            rw [mapRefs_ref]
            have hpmem : (btGet doc.objects pagesId).isSome = true :=
              hclosed.1 (rootId, .dict cat) (btGet_mem _ _ _ hw) pagesId
                (refsIn_dGet cat "Pages" _ hp pagesId (by simp [refsIn]))
            exact pageIterAux_renumber doc s hclosed _ pagesId hpmem
          | null => rfl
          | boolean b => rfl
          | integer i => rfl
          | real r => rfl
          | string str => rfl
          | name n => rfl
          | array xs => rfl
          | dict dd => rfl
          | stream dd ops => rfl
      | null =>
        have h1 : getNodeDict doc rootId = none := by
          unfold getNodeDict; rw [hw]
        have h2 : getNodeDict (renumber_objects_with s doc)
            (replMap (doc.objects.map Prod.fst) s rootId) = none := by
          unfold getNodeDict; rw [hrw]; rfl
        rw [h1, h2]
        rfl
      | boolean b =>
        have h1 : getNodeDict doc rootId = none := by
          unfold getNodeDict; rw [hw]
        have h2 : getNodeDict (renumber_objects_with s doc)
            (replMap (doc.objects.map Prod.fst) s rootId) = none := by
          unfold getNodeDict; rw [hrw]; rfl
        rw [h1, h2]
        rfl
      | integer i =>
        have h1 : getNodeDict doc rootId = none := by
          unfold getNodeDict; rw [hw]
        have h2 : getNodeDict (renumber_objects_with s doc)
            (replMap (doc.objects.map Prod.fst) s rootId) = none := by
          unfold getNodeDict; rw [hrw]; rfl
        rw [h1, h2]
        rfl
      | real r =>
        have h1 : getNodeDict doc rootId = none := by
          unfold getNodeDict; rw [hw]
        have h2 : getNodeDict (renumber_objects_with s doc)
            (replMap (doc.objects.map Prod.fst) s rootId) = none := by
          unfold getNodeDict; rw [hrw]; rfl
        rw [h1, h2]
        rfl
      | string str =>
        have h1 : getNodeDict doc rootId = none := by
          unfold getNodeDict; rw [hw]
        have h2 : getNodeDict (renumber_objects_with s doc)
            (replMap (doc.objects.map Prod.fst) s rootId) = none := by
          unfold getNodeDict; rw [hrw]; rfl
        rw [h1, h2]
        rfl
      | name n =>
        have h1 : getNodeDict doc rootId = none := by
          unfold getNodeDict; rw [hw]
        have h2 : getNodeDict (renumber_objects_with s doc)
            (replMap (doc.objects.map Prod.fst) s rootId) = none := by
          unfold getNodeDict; rw [hrw]; rfl
        rw [h1, h2]
        rfl
      | ref rr =>
        have h1 : getNodeDict doc rootId = none := by
          unfold getNodeDict; rw [hw]
        have h2 : getNodeDict (renumber_objects_with s doc)
            (replMap (doc.objects.map Prod.fst) s rootId) = none := by
          unfold getNodeDict; rw [hrw]; rfl
        rw [h1, h2]
        rfl
      | array xs =>
        have h1 : getNodeDict doc rootId = none := by
          unfold getNodeDict; rw [hw]
        have h2 : getNodeDict (renumber_objects_with s doc)
            (replMap (doc.objects.map Prod.fst) s rootId) = none := by
          unfold getNodeDict; rw [hrw]; rfl
        rw [h1, h2]
        rfl
      | stream dd ops =>
        have h1 : getNodeDict doc rootId = none := by
          unfold getNodeDict; rw [hw]
        have h2 : getNodeDict (renumber_objects_with s doc)
            (replMap (doc.objects.map Prod.fst) s rootId) = none := by
          unfold getNodeDict; rw [hrw]; rfl
        rw [h1, h2]
        rfl
    | null => rfl
    | boolean b => rfl
    | integer i => rfl
    | real r => rfl
    | string str => rfl
    | name n => rfl
    | array xs => rfl
    | dict dd => rfl
    | stream dd ops => rfl

theorem btInsert_keys_subset (k : OId) (v : Obj) (m : List (OId × Obj)) :
    ∀ k' ∈ (btInsert k v m).map Prod.fst, k' = k ∨ k' ∈ m.map Prod.fst := by
  induction m with
  | nil => simp [btInsert]
  | cons kv t ih =>
    intro k' hk'
    unfold btInsert at hk'
    by_cases he : k = kv.1
    · rw [if_pos he] at hk'
      simp only [List.map_cons, List.mem_cons] at hk'
      rcases hk' with h | h
      · exact .inl h
      · exact .inr (by simp [h])
    · rw [if_neg he] at hk'
      by_cases hlt : oidLt k kv.1
      · rw [if_pos hlt] at hk'
        simp only [List.map_cons, List.mem_cons] at hk'
        rcases hk' with h | h | h
        · exact .inl h
        · exact .inr (by simp [h])
        · exact .inr (by simp [h])
      · rw [if_neg hlt] at hk'
        simp only [List.map_cons, List.mem_cons] at hk'
        rcases hk' with h | h
        · exact .inr (by simp [h])
        · rcases ih k' h with h' | h'
          · exact .inl h'
          · exact .inr (by simp [h'])

theorem btInsert_length_fresh (k : OId) (v : Obj) (m : List (OId × Obj))
    (h : k ∉ m.map Prod.fst) :
    (btInsert k v m).length = m.length + 1 := by
  induction m with
  | nil => rfl
  | cons kv t ih =>
    simp only [List.map_cons, List.mem_cons, not_or] at h
    unfold btInsert
    rw [if_neg h.1]
    by_cases hlt : oidLt k kv.1
    · rw [if_pos hlt]
      rfl
    · rw [if_neg hlt]
      simp [ih h.2]

theorem btExtend_keys_subset (batch m : List (OId × Obj)) :
    ∀ k' ∈ (btExtend m batch).map Prod.fst,
      k' ∈ m.map Prod.fst ∨ k' ∈ batch.map Prod.fst := by
  induction batch generalizing m with
  | nil => intro k' h; exact .inl h
  | cons kv t ih =>
    intro k' hk'
    have hstep : btExtend m (kv :: t) = btExtend (btInsert kv.1 kv.2 m) t :=
      rfl
    rw [hstep] at hk'
    rcases ih _ k' hk' with h | h
    · rcases btInsert_keys_subset kv.1 kv.2 m k' h with h' | h'
      · exact .inr (by simp [h'])
      · exact .inl h'
    · exact .inr (by simp [h])

theorem btExtend_length (batch m : List (OId × Obj))
    (hnd : (batch.map Prod.fst).Nodup)
    (hdisj : ∀ k ∈ batch.map Prod.fst, k ∉ m.map Prod.fst) :
    (btExtend m batch).length = m.length + batch.length := by
  induction batch generalizing m with
  | nil => rfl
  | cons kv t ih =>
    have hstep : btExtend m (kv :: t) = btExtend (btInsert kv.1 kv.2 m) t :=
      rfl
    rw [hstep]
    simp only [List.map_cons, List.nodup_cons] at hnd
    have hlen1 : (btInsert kv.1 kv.2 m).length = m.length + 1 :=
      btInsert_length_fresh _ _ _ (hdisj kv.1 (by simp))
    rw [ih (btInsert kv.1 kv.2 m) hnd.2 ?_, hlen1]
    · simp [Nat.add_assoc, Nat.add_comm 1]
    · intro k hk hmem
      rcases btInsert_keys_subset kv.1 kv.2 m k hmem with h' | h'
      · exact hnd.1 (h' ▸ hk)
      · exact hdisj k (by simp [hk]) h'

theorem get_pages_map_snd (doc : Document) :
    (get_pages doc).map Prod.snd = page_iter doc := by
  unfold get_pages
  rw [List.map_map]
  have : (Prod.snd ∘ fun p : Nat × OId => (p.1 + 1, p.2)) = Prod.snd := rfl
  rw [this, List.enum_map_snd]

theorem get_pages_length (doc : Document) :
    (get_pages doc).length = (page_iter doc).length := by
  unfold get_pages
  rw [List.length_map, List.enum_length]

theorem mapM_pages_ok (doc : Document) (l : List (Nat × OId))
    (h : ∀ p ∈ l, (btGet doc.objects p.2).isSome = true) :
    ∃ batch : List (OId × Obj),
      (l.mapM (fun p =>
        match btGet doc.objects p.2 with
        | some o => Except.ok (p.2, o)
        | none => Except.error Fail.panicked)) = .ok batch ∧
      batch.map Prod.fst = l.map Prod.snd := by
  induction l with
  | nil => exact ⟨[], rfl, rfl⟩
  | cons p t ih =>
    obtain ⟨o, ho⟩ : ∃ o, btGet doc.objects p.2 = some o := by
      cases hb : btGet doc.objects p.2 with
      | none =>
        have := h p (by simp)
        rw [hb] at this
        simp at this
      | some o => exact ⟨o, rfl⟩
    obtain ⟨batch, hbatch, hkeys⟩ := ih (fun q hq => h q (by simp [hq]))
    refine ⟨(p.2, o) :: batch, ?_, by simp [hkeys]⟩
    rw [List.mapM_cons, ho]
    dsimp only
    rw [hbatch]
    rfl

theorem oidLt_trans {a b c : OId} (h1 : oidLt a b = true)
    (h2 : oidLt b c = true) : oidLt a c = true := by
  unfold oidLt at *
  simp only [Bool.or_eq_true, decide_eq_true_eq, Bool.and_eq_true] at *
  omega

theorem oidLt_total {a b : OId} (hne : ¬a = b) (hlt : ¬oidLt a b = true) :
    oidLt b a = true := by
  unfold oidLt at *
  simp only [Bool.or_eq_true, decide_eq_true_eq, Bool.and_eq_true] at *
  rcases a with ⟨a1, a2⟩
  rcases b with ⟨b1, b2⟩
  simp only [Prod.mk.injEq, not_and] at hne
  by_cases h1 : a1 = b1
  · subst h1
    have h2 : ¬a2 = b2 := fun h => hne rfl h
    omega
  · omega

theorem btInsert_sorted (k : OId) (v : Obj) (m : List (OId × Obj))
    (hs : m.Pairwise (fun a b => oidLt a.1 b.1 = true)) :
    (btInsert k v m).Pairwise (fun a b => oidLt a.1 b.1 = true) := by
  induction m with
  | nil => simp [btInsert]
  | cons kv t ih =>
    rw [List.pairwise_cons] at hs
    unfold btInsert
    by_cases he : k = kv.1
    · rw [if_pos he]
      rw [List.pairwise_cons]
      exact ⟨fun b hb => he ▸ hs.1 b hb, hs.2⟩
    · rw [if_neg he]
      by_cases hlt : oidLt k kv.1
      · rw [if_pos hlt]
        rw [List.pairwise_cons]
        refine ⟨?_, List.pairwise_cons.mpr hs⟩
        intro b hb
        rcases List.mem_cons.mp hb with h | h
        · rw [h]
          exact hlt
        · exact oidLt_trans hlt (hs.1 b h)
      · rw [if_neg hlt]
        rw [List.pairwise_cons]
        refine ⟨?_, ih hs.2⟩
        intro b hb
        have hbk := btInsert_keys_subset k v t b.1
          (List.mem_map_of_mem Prod.fst hb)
        rcases hbk with h | h
        · rw [h]
          exact oidLt_total he hlt
        · obtain ⟨c, hc, hcb⟩ := List.mem_map.mp h
          have hgoal := hs.1 c hc
          rw [hcb] at hgoal
          exact hgoal

theorem btExtend_sorted (batch m : List (OId × Obj))
    (hs : m.Pairwise (fun a b => oidLt a.1 b.1 = true)) :
    (btExtend m batch).Pairwise (fun a b => oidLt a.1 b.1 = true) := by
  induction batch generalizing m with
  | nil => exact hs
  | cons kv t ih =>
    have hstep : btExtend m (kv :: t) = btExtend (btInsert kv.1 kv.2 m) t :=
      rfl
    rw [hstep]
    exact ih _ (btInsert_sorted kv.1 kv.2 m hs)

theorem importOne_ok (u2p : List (String × Nat))
    (objects pages : List (OId × Obj)) (s : Nat) (url : String)
    (src : Document) :
    ∃ batch : List (OId × Obj),
      importOne (u2p, objects, pages, s) (url, src) =
        .ok (u2p ++ [(url, pages.length)],
          btExtend objects (renumber_objects_with s src).objects,
          btExtend pages batch,
          (renumber_objects_with s src).max_id + 1) ∧
      batch.map Prod.fst = page_iter (renumber_objects_with s src) := by
  obtain ⟨batch, hb, hk⟩ := mapM_pages_ok (renumber_objects_with s src)
    (get_pages (renumber_objects_with s src))
    (fun p hp => page_iter_mem _ p.2
      ((get_pages_map_snd _) ▸ List.mem_map_of_mem Prod.snd hp))
  refine ⟨batch, ?_, hk.trans (get_pages_map_snd _)⟩
  unfold importOne
  dsimp only
  rw [hb]
  rfl

theorem importFold_spec (srcs : List (String × Document)) :
    ∀ (u2p : List (String × Nat)) (objects pages : List (OId × Obj))
      (s : Nat),
    (∀ e ∈ srcs, SrcOk e.2) → 1 ≤ s →
    (∀ k ∈ pages.map Prod.fst, k.1 < s) →
    ∃ (u2pF : List (String × Nat)) (objectsF pagesF : List (OId × Obj))
      (sF : Nat),
      srcs.foldlM importOne (u2p, objects, pages, s) =
        .ok (u2pF, objectsF, pagesF, sF) ∧
      pagesF.length = pages.length + pagesTotal srcs ∧
      1 ≤ sF ∧
      (∀ k ∈ pagesF.map Prod.fst, k.1 < sF) ∧
      ((∀ e ∈ srcs, 1 ≤ (page_iter e.2).length) →
        (∀ e ∈ u2p, e.2 + 1 ≤ pages.length) →
        ∀ e ∈ u2pF, e.2 + 1 ≤ pagesF.length) ∧
      (pages.Pairwise (fun a b => oidLt a.1 b.1 = true) →
        pagesF.Pairwise (fun a b => oidLt a.1 b.1 = true)) := by
  induction srcs with
  | nil =>
    intro u2p objects pages s _ hs hbound
    exact ⟨u2p, objects, pages, s, rfl, by simp [pagesTotal], hs, hbound,
      fun _ h => h, fun h => h⟩
  | cons src rest ih =>
    intro u2p objects pages s hsrc hs hbound
    obtain ⟨batch, hone, hbk⟩ := importOne_ok u2p objects pages s src.1 src.2
    have hclosed : RefsClosed src.2 := (hsrc src (by simp)).1
    have hndup : (page_iter src.2).Nodup := (hsrc src (by simp)).2
    have hpi : page_iter (renumber_objects_with s src.2) =
        (page_iter src.2).map
          (replMap (src.2.objects.map Prod.fst) s) :=
      page_iter_renumber _ _ hclosed
    have hbk2 : batch.map Prod.fst =
        (page_iter src.2).map (replMap (src.2.objects.map Prod.fst) s) :=
      hbk.trans hpi
    have hblen : batch.length = (page_iter src.2).length := by
      have hc := congrArg List.length hbk2
      simpa using hc
    have hbatchnd : (batch.map Prod.fst).Nodup := by
      rw [hbk2]
      refine hndup.map_on ?_
      intro x hx y hy hxy
      exact replMap_inj_on _ _ _ _
        (mem_of_btGet_isSome _ _ (page_iter_mem src.2 x hx))
        (mem_of_btGet_isSome _ _ (page_iter_mem src.2 y hy)) hxy
    have hbbound : ∀ k ∈ batch.map Prod.fst,
        s ≤ k.1 ∧ k.1 < s + src.2.objects.length := by
      intro k hk
      rw [hbk] at hk
      have hpresent := page_iter_mem (renumber_objects_with s src.2) k hk
      have hmemk := mem_of_btGet_isSome _ _ hpresent
      exact renumAux_keys _ s src.2.objects k hmemk
    have hdisj : ∀ k ∈ batch.map Prod.fst, k ∉ pages.map Prod.fst := by
      intro k hk hmem
      have h1 := (hbbound k hk).1
      have h2 := hbound k hmem
      omega
    have hp1len : (btExtend pages batch).length =
        pages.length + batch.length :=
      btExtend_length batch pages hbatchnd hdisj
    have hs2 : (renumber_objects_with s src.2).max_id + 1 =
        s + src.2.objects.length := by
      show s + src.2.objects.length - 1 + 1 = s + src.2.objects.length
      omega
    rw [hs2] at hone
    have hbound1 : ∀ k ∈ (btExtend pages batch).map Prod.fst,
        k.1 < s + src.2.objects.length := by
      intro k hk
      rcases btExtend_keys_subset batch pages k hk with h | h
      · have := hbound k h
        omega
      · exact (hbbound k h).2
    obtain ⟨u2pF, objectsF, pagesF, sF, hfoldR, hlenF, hsF, hboundF, hordF,
      hsortF⟩ :=
      ih (u2p ++ [(src.1, pages.length)])
        (btExtend objects (renumber_objects_with s src.2).objects)
        (btExtend pages batch) (s + src.2.objects.length)
        (fun e he => hsrc e (by simp [he])) (by omega) hbound1
    refine ⟨u2pF, objectsF, pagesF, sF, ?_, ?_, hsF, hboundF, ?_,
      fun hsort => hsortF (btExtend_sorted batch pages hsort)⟩
    · rw [show (src :: rest).foldlM importOne (u2p, objects, pages, s) =
        importOne (u2p, objects, pages, s) src >>= fun st =>
          rest.foldlM importOne st from rfl]
      rw [show (src.1, src.2) = src from rfl] at hone
      rw [hone, res_bind_ok]
      exact hfoldR
    · rw [hlenF, hp1len, hblen]
      have hpt : pagesTotal (src :: rest) =
          (page_iter src.2).length + pagesTotal rest := by
        simp [pagesTotal]
      omega
    · intro hall hbase
      refine hordF (fun e he => hall e (by simp [he])) ?_
      intro e he
      rcases List.mem_append.mp he with h | h
      · have := hbase e h
        omega
      · have he2 : e = (src.1, pages.length) := by simpa using h
        subst he2
        have hge : 1 ≤ batch.length := by
          rw [hblen]
          exact hall src (by simp)
        simp only
        omega

theorem merge_pdf_objects_spec (srcs : List (String × Document))
    (hsrc : ∀ e ∈ srcs, SrcOk e.2) :
    ∃ (parts : PdfParts) (u2p : List (String × Nat)),
      merge_pdf_objects srcs = .ok (parts, u2p) ∧
      parts.pages.length = pagesTotal srcs ∧
      parts.pages.Pairwise (fun a b => oidLt a.1 b.1 = true) ∧
      ((∀ e ∈ srcs, 1 ≤ (page_iter e.2).length) →
        ∀ e ∈ u2p, e.2 + 1 ≤ parts.pages.length) := by
  obtain ⟨u2pF, objectsF, pagesF, sF, hfold, hlen, _, _, hord, hsort⟩ :=
    importFold_spec srcs [] [] [] 1 hsrc (by omega) (by simp)
  refine ⟨{objects := objectsF, pages := pagesF}, u2pF, ?_,
    by simpa using hlen, hsort (by simp), fun hall => hord hall (by simp)⟩
  unfold merge_pdf_objects
  rw [hfold, res_bind_ok]
  rfl

theorem mapRefsList_refs (f : OId → OId) (l : List OId) :
    mapRefsList f (l.map Obj.ref) = l.map (fun k => Obj.ref (f k)) := by
  induction l with
  | nil => rfl
  | cons k t ih => rw [List.map_cons, mapRefsList, mapRefs_ref, ih]; rfl

/-- C2 (corrected): for every successful merge of well-formed sources
(closed references, duplicate-free page trees), the merged root `Pages`
node's `Kids` list length equals its `Count` integer and both equal the
total number of imported pages `Σ P_i`; the imported pages are accumulated
in ascending renumbered object-id order — grouping the sources in import
order, since each source receives a fresh higher id range — and the `Kids`
list references them in exactly that accumulator order.  Within one source
that order is the source's ascending original object-id order, which need
not be the source's page-tree page order (refuting the intra-source
ordering conjunct of the claim; see the counterexample). -/
theorem c2_kids_count_total (srcs : List (String × Document))
    (parts : PdfParts) (u2p : List (String × Nat)) (st : ScanState)
    (doc0 docF : Document) (cid : OId) (cd : Dict) (pid2 : OId) (pd : Dict)
    (hsrc : ∀ e ∈ srcs, SrcOk e.2)
    (hmerge : merge_pdf_objects srcs = .ok (parts, u2p))
    (hscan : scanObjects parts = .ok st)
    (hcat : st.catalog_object = some (cid, .dict cd))
    (hpo : st.pages_object = some (pid2, .dict pd))
    (hne : cid ≠ pid2)
    (hbuild : buildCore parts = .ok doc0)
    (hbuildF : build_pdf_from_objects parts = .ok docF) :
    ∃ (rootId pagesId : OId) (cat pagesDict : Dict) (kids : List Obj),
      dGet docF.trailer "Root" = some (.ref rootId) ∧
      btGet docF.objects rootId = some (.dict cat) ∧
      dGet cat "Pages" = some (.ref pagesId) ∧
      btGet docF.objects pagesId = some (.dict pagesDict) ∧
      dGet pagesDict "Kids" = some (.array kids) ∧
      dGet pagesDict "Count" = some (.integer parts.pages.length) ∧
      kids.length = parts.pages.length ∧
      parts.pages.length = pagesTotal srcs ∧
      parts.pages.Pairwise (fun a b => oidLt a.1 b.1 = true) ∧
      kids = (parts.pages.map Prod.fst).map
        (fun k => Obj.ref (replMap (doc0.objects.map Prod.fst) 1 k)) := by
  obtain ⟨parts', u2p', hok, hlen, hsort, _⟩ := merge_pdf_objects_spec srcs hsrc
  rw [hmerge, Except.ok.injEq, Prod.mk.injEq] at hok
  obtain ⟨hp, _⟩ := hok
  subst hp
  obtain ⟨destinations, mid, base, hobj, hroot, hmidp⟩ :=
    buildCore_shape parts doc0 st cid cd pid2 pd hbuild hscan hcat hpo
  have hdocF : docF = renumber_objects_with 1 doc0 := by
    unfold build_pdf_from_objects at hbuildF
    rw [hbuild, res_bind_ok, res_pure, Except.ok.injEq] at hbuildF
    exact hbuildF.symm
  subst hdocF
  set f := replMap (doc0.objects.map Prod.fst) 1 with hf
  have hcatget : btGet doc0.objects cid =
      some (.dict (dSet "Dests" (.dict destinations) mid)) := by
    rw [hobj]
    exact btGet_btInsert_same _ _ _
  have hpagesget : btGet doc0.objects pid2 =
      some (.dict (dSet "Kids"
        (.array (parts.pages.map (fun kv => Obj.ref kv.1)))
        (dSet "Count" (.integer parts.pages.length) pd))) := by
    rw [hobj]
    rw [btGet_btInsert_ne _ _ _ _ (fun h => hne h.symm)]
    exact btGet_btInsert_same _ _ _
  have hrenc := btGet_renumber_objects_with doc0 1 cid _ hcatget
  have hrenp := btGet_renumber_objects_with doc0 1 pid2 _ hpagesget
  rw [← hf] at hrenc hrenp
  refine ⟨f cid, f pid2,
    mapRefsEntries f (dSet "Dests" (.dict destinations) mid),
    mapRefsEntries f (dSet "Kids"
      (.array (parts.pages.map (fun kv => Obj.ref kv.1)))
      (dSet "Count" (.integer parts.pages.length) pd)),
    mapRefsList f (parts.pages.map (fun kv => Obj.ref kv.1)),
    ?_, ?_, ?_, ?_, ?_, ?_, ?_, hlen, hsort, ?_⟩
  · rw [trailer_renumber_objects_with, ← hf, dGet_mapRefsEntries, hroot]
    rfl
  · rw [hrenc, mapRefs_dict]
  · rw [dGet_mapRefsEntries]
    rw [dGet_dSet_ne _ _ _ _ (by decide), hmidp]
    rfl
  · rw [hrenp, mapRefs_dict]
  · rw [dGet_mapRefsEntries, dGet_dSet_same]
    rfl
  · rw [dGet_mapRefsEntries]
    rw [dGet_dSet_ne _ _ _ _ (by decide), dGet_dSet_same]
    rfl
  · rw [mapRefsList_length, List.length_map]
  · rw [show parts.pages.map (fun kv => Obj.ref kv.1) =
      (parts.pages.map Prod.fst).map Obj.ref by rw [List.map_map]; rfl]
    exact mapRefsList_refs f _

/-- Witness for `c2_kids_count_total`: the single-source merge of a one-page
document satisfies every hypothesis, and the merged root `Pages` node
carries a one-element `Kids` array and `Count` 1. -/
theorem c2_kids_count_total_witness :
    (∀ e ∈ c2wSrcs, SrcOk e.2) ∧
    merge_pdf_objects c2wSrcs = .ok (c2wParts, c2wU2p) ∧
    (((3, 0) : OId) ≠ ((1, 0) : OId)) ∧
    (∃ (rootId pagesId : OId) (cat pagesDict : Dict) (kids : List Obj),
      dGet c2wDocF.trailer "Root" = some (.ref rootId) ∧
      btGet c2wDocF.objects rootId = some (.dict cat) ∧
      dGet cat "Pages" = some (.ref pagesId) ∧
      btGet c2wDocF.objects pagesId = some (.dict pagesDict) ∧
      dGet pagesDict "Kids" = some (.array kids) ∧
      dGet pagesDict "Count" = some (.integer c2wParts.pages.length) ∧
      kids.length = c2wParts.pages.length ∧
      c2wParts.pages.length = pagesTotal c2wSrcs ∧
      c2wParts.pages.Pairwise (fun a b => oidLt a.1 b.1 = true) ∧
      kids = (c2wParts.pages.map Prod.fst).map
        (fun k => Obj.ref (replMap (c2wDoc0.objects.map Prod.fst) 1 k))) :=
  ⟨by decide, rfl, by decide,
    c2_kids_count_total c2wSrcs c2wParts c2wU2p c2wSt c2wDoc0 c2wDocF
      (3, 0) [("Type", .name "Catalog"), ("Pages", .ref (1, 0))]
      (1, 0) [("Type", .name "Pages"), ("Kids", .array [.ref (2, 0)]),
        ("Count", .integer 1)]
      (by decide) rfl rfl rfl rfl (by decide) rfl rfl⟩

/-- Counterexample to C2's intra-source ordering conjunct: a source whose
page tree lists its pages as `A` (object 3) then `B` (object 2) ends up, in
the merged document, with page order `B` then `A` — the merge orders pages
by ascending object id, not by the source's page-tree order. -/
theorem c2_intra_source_order_lost :
    pageMarkers mkSwappedPagesDoc =
      [some (.name "A"), some (.name "B")] ∧
    pageMarkersRes [("u", mkSwappedPagesDoc)] =
      .ok [some (.name "B"), some (.name "A")] := ⟨rfl, rfl⟩

theorem natGet_enumFrom (l : List OId) :
    ∀ (n k : Nat), n + 1 ≤ k → k ≤ n + l.length →
    (natGet ((List.enumFrom n l).map (fun p => (p.1 + 1, p.2))) k).isSome
      = true := by
  induction l with
  | nil =>
    intro n k h1 h2
    exfalso
    simp only [List.length_nil] at h2
    omega
  | cons x t ih =>
    intro n k h1 h2
    by_cases hk : k = n + 1
    · subst hk
      simp [natGet]
    · have hrec := ih (n + 1) k (by omega)
        (by simp only [List.length_cons] at h2; omega)
      show (natGet ((n + 1, x) ::
        (List.enumFrom (n + 1) t).map (fun p => (p.1 + 1, p.2)))
        k).isSome = true
      rw [natGet, if_neg hk]
      exact hrec

theorem natGet_get_pages (doc : Document) (k : Nat) (h1 : 1 ≤ k)
    (h2 : k ≤ (page_iter doc).length) :
    (natGet (get_pages doc) k).isSome = true := by
  have hbase := natGet_enumFrom (page_iter doc) 0 k (by omega) (by omega)
  unfold get_pages
  rw [show (page_iter doc).enum = List.enumFrom 0 (page_iter doc) from rfl]
  exact hbase

theorem mapM_lookup_ok (doc : Document) (l : List (String × Nat))
    (h : ∀ e ∈ l, (natGet (get_pages doc) (e.2 + 1)).isSome = true) :
    ∃ m : List (String × OId),
      (l.mapM (fun p =>
        match natGet (get_pages doc) (p.2 + 1) with
        | some pid => Except.ok (p.1, pid)
        | none => Except.error Fail.panicked)) = .ok m ∧
      m.map Prod.fst = l.map Prod.fst := by
  induction l with
  | nil => exact ⟨[], rfl, rfl⟩
  | cons e t ih =>
    obtain ⟨pid, hpid⟩ : ∃ pid,
        natGet (get_pages doc) (e.2 + 1) = some pid := by
      have hs := h e (by simp)
      cases hg : natGet (get_pages doc) (e.2 + 1) with
      | none => rw [hg] at hs; simp at hs
      | some pid => exact ⟨pid, rfl⟩
    obtain ⟨m, hm, hk⟩ := ih (fun q hq => h q (by simp [hq]))
    refine ⟨(e.1, pid) :: m, ?_, by simp [hk]⟩
    rw [List.mapM_cons, hpid]
    dsimp only
    rw [hm]
    rfl

theorem build_url_to_page_id_ok (doc : Document)
    (u2p : List (String × Nat))
    (h : ∀ e ∈ u2p, e.2 + 1 ≤ (page_iter doc).length) :
    ∃ m, build_url_to_page_id doc u2p = .ok m ∧
      m.map Prod.fst = u2p.map Prod.fst := by
  obtain ⟨m, hm, hk⟩ := mapM_lookup_ok doc u2p
    (fun e he => natGet_get_pages doc (e.2 + 1) (by omega) (h e he))
  exact ⟨m, hm, hk⟩

/-- C10: the link rewriter turns each url's recorded zero-based page ordinal
into a page id by looking up `ordinal + 1` in the merged document's 1-based
page map with an unchecked `unwrap`.  Whenever every recorded ordinal is
below the merged page count — in particular for any merge of well-formed
sources that each contribute at least one page — every lookup succeeds; but
when the last imported source has zero pages its recorded ordinal equals the
merged page count, the lookup misses, and the whole merge dies with a panic
instead of an error. -/
theorem c10_unchecked_page_lookup :
    (∀ (doc : Document) (u2p : List (String × Nat)),
        (∀ e ∈ u2p, e.2 + 1 ≤ (page_iter doc).length) →
        ∃ m, build_url_to_page_id doc u2p = .ok m ∧
          m.map Prod.fst = u2p.map Prod.fst) ∧
    (∀ (srcs : List (String × Document)) (parts : PdfParts)
        (u2p : List (String × Nat)) (docF : Document),
        (∀ e ∈ srcs, SrcOk e.2) →
        merge_pdf_objects srcs = .ok (parts, u2p) →
        (page_iter docF).length = parts.pages.length →
        (∀ e ∈ srcs, 1 ≤ (page_iter e.2).length) →
        ∃ m, build_url_to_page_id docF u2p = .ok m) ∧
    merge_pdfs testConf
        [("a", .ok c2wDoc), ("b", .ok mkZeroPageDoc)] =
      .error .panicked := by
  refine ⟨build_url_to_page_id_ok, ?_, ?_⟩
  · intro srcs parts u2p docF hsrc hmerge hpc hall
    obtain ⟨parts', u2p', hok, hlen, hsort, hord⟩ :=
      merge_pdf_objects_spec srcs hsrc
    rw [hmerge, Except.ok.injEq, Prod.mk.injEq] at hok
    obtain ⟨hp, hu⟩ := hok
    subst hp
    subst hu
    obtain ⟨m, hm, _⟩ := build_url_to_page_id_ok docF u2p
      (fun e he => by rw [hpc]; exact hord hall e he)
    exact ⟨m, hm⟩
  · simp [merge_pdfs, testConf, c2wDoc, mkZeroPageDoc, merge_pdf_objects,
      importOne, renumber_objects_with, renumAux, replMap, idxOfKey, mapRefs,
      mapRefsEntries, mapRefsList, mapRefsOps, get_pages, page_iter,
      pageIterAux, getNodeDict, btGet, btInsert, btExtend, btRemove,
      type_name, dGet, dSet, dHas, dRemove, dExtend, oidLt,
      build_pdf_from_objects, buildCore, scanObjects, scanOne, pages_step,
      collectDests, merge_outlines, outlineStep, walk_chain, objSize,
      objSizeEntries, objSizeList, adjust_zero_pages, compress,
      renumber_objects, rewrite_vitepress_links, build_url_to_page_id,
      natGet, get_named_dests, catalog, get_dict_in_dict, get_dictionary,
      get_object, deref, deref.go, get_deref, as_dict, as_reference,
      as_array, as_i64, as_name, as_string, require, setObj, add_object,
      collectAnnots, classifyAnnot, apply_anchor_rewrite, apply_url_rewrite,
      splitOnChar, splitOnCharAux, strStartsWith, charContains, strIsEmpty,
      strGet, add_page_numbers, numberPage, bindFont, findFreeFont,
      findFreeFontAux, add_to_page_content, Document.withVersion,
      List.mapM, List.mapM.loop, List.foldlM, List.enum, List.enumFrom,
      Bind.bind, Except.bind, pure, Except.pure]

/-- Counterexample for C1: merging a site whose link hits the anchor
`intro` succeeds with no problem entries — the anchor hit was staged and
applied — yet the rewritten annotation still carries its `A` action next to
the new `Dest`: the anchor-rewrite loop never drops the old action. -/
theorem c1_anchor_hit_keeps_action :
    c1Probe = .ok (([], [], true), some (true, true)) := by
  simp [c1Probe, c1AnchorRun, firstAnnotFlags, shortConf, c1SlimLink,
    c1SlimTarget, merge_pdfs, merge_pdf_objects,
    importOne, renumber_objects_with, renumAux, replMap, idxOfKey, mapRefs,
    mapRefsEntries, mapRefsList, mapRefsOps, get_pages, page_iter,
    pageIterAux, getNodeDict, btGet, btInsert, btExtend, btRemove,
    type_name, dGet, dSet, dHas, dRemove, dExtend, oidLt,
    build_pdf_from_objects, buildCore, scanObjects, scanOne, pages_step,
    collectDests, merge_outlines, outlineStep, walk_chain, objSize,
    objSizeEntries, objSizeList, adjust_zero_pages, compress,
    renumber_objects, rewrite_vitepress_links, build_url_to_page_id,
    natGet, get_named_dests, catalog, get_dict_in_dict, get_dictionary,
    get_object, deref, deref.go, get_deref, as_dict, as_reference, as_array,
    as_i64, as_name, as_string, require, setObj, add_object, collectAnnots,
    classifyAnnot, apply_anchor_rewrite, apply_url_rewrite, splitOnChar,
    splitOnCharAux, strStartsWith, charContains, strIsEmpty, strGet,
    add_page_numbers, numberPage, bindFont, findFreeFont, findFreeFontAux,
    add_to_page_content, Document.withVersion, List.mapM, List.mapM.loop,
    List.foldlM, List.enum, List.enumFrom, Bind.bind, Except.bind, pure,
    Except.pure]

/-- Counterexample for C7's "exactly when" list: a source that parses fine,
has a Pages root, a Catalog, and no outlines still aborts the merge — its
Link annotation's `A` dictionary has no `URI`, and the rewriter's
`get(b"URI")?` error propagates out of `merge_pdfs` even though import and
assembly succeed. -/
theorem c7_goto_link_aborts :
    (c7BuildStage).isOk = true ∧
    merge_pdfs shortConf [("b/1.h", .ok c7GoToDoc)] =
      .error (.error "missing URI") := by
  constructor <;>
  simp [c7BuildStage, shortConf, c7GoToDoc, merge_pdfs, merge_pdf_objects,
    importOne, renumber_objects_with, renumAux, replMap, idxOfKey, mapRefs,
    mapRefsEntries, mapRefsList, mapRefsOps, get_pages, page_iter,
    pageIterAux, getNodeDict, btGet, btInsert, btExtend, btRemove,
    type_name, dGet, dSet, dHas, dRemove, dExtend, oidLt,
    build_pdf_from_objects, buildCore, scanObjects, scanOne, pages_step,
    collectDests, merge_outlines, outlineStep, walk_chain, objSize,
    objSizeEntries, objSizeList, adjust_zero_pages, compress,
    renumber_objects, rewrite_vitepress_links, build_url_to_page_id,
    natGet, get_named_dests, catalog, get_dict_in_dict, get_dictionary,
    get_object, deref, deref.go, get_deref, as_dict, as_reference, as_array,
    as_i64, as_name, as_string, require, setObj, add_object, collectAnnots,
    classifyAnnot, apply_anchor_rewrite, apply_url_rewrite, splitOnChar,
    splitOnCharAux, strStartsWith, charContains, strIsEmpty, strGet,
    add_page_numbers, numberPage, bindFont, findFreeFont, findFreeFontAux,
    add_to_page_content, Document.withVersion, List.mapM, List.mapM.loop,
    List.foldlM, List.enum, List.enumFrom, Bind.bind, Except.bind, pure,
    Except.pure]

/-- Witness for `c10_unchecked_page_lookup`: the one-page single-source
merge satisfies the hypotheses of the positive conjunct and its url table
resolves completely. -/
theorem c10_unchecked_page_lookup_witness :
    (∀ e ∈ c2wSrcs, SrcOk e.2) ∧
    (page_iter c2wDocF).length = c2wParts.pages.length ∧
    (∀ e ∈ c2wSrcs, 1 ≤ (page_iter e.2).length) ∧
    (∃ m, build_url_to_page_id c2wDocF c2wU2p = .ok m) :=
  ⟨by decide, rfl, by decide,
    c10_unchecked_page_lookup.2.1 c2wSrcs c2wParts c2wU2p c2wDocF
      (by decide) rfl rfl (by decide)⟩

end VPDF
